import Mathlib

set_option maxHeartbeats 1000000

/-!
Shallow embedding of the witness-generation engine of `plonky2x`
(`src/plonky2x/src/backend/circuit/witness.rs`) and of the remote prover's
polling loop (`src/plonky2x/src/backend/prover/remote.rs`).

Targets (wires) and field values are modelled as `Nat`; a generator's opaque
`run` is modelled as a function from the current witness to the produced
(target, value) pairs together with the `finished` flag.  Rust panics
(conflicting assignment, out-of-bounds indexing, `unwrap` on `None`) are
modelled as an explicit fatal outcome.  The scheduler state carries a ghost
field `run_counts` recording, per generator index, how many times its `run`
operation has been invoked; it influences nothing (synchronous generators
ignore it) and exists only so that scheduling claims about invocation counts
can be stated.  For asynchronous generators the invocation count doubles as
the generator's internal polling state, made explicit.
-/

/-- Modelled from the spec: the Value Store (plonky2's `PartitionWitness`,
library code not under `src/`).  `values` maps each equivalence-class
representative to its value (`none` = unknown); `representative_map` maps a
target index to its class representative. -/
structure PartitionWitness where
  values : List (Option Nat)
  representative_map : List Nat
  deriving DecidableEq, Repr

/-- Modelled from the spec: `PartitionWitness::new` — a fresh store with every
representative unknown, capacity fixed by the compiled circuit. -/
def PartitionWitness.new (representative_map : List Nat) : PartitionWitness :=
  ⟨List.replicate representative_map.length none, representative_map⟩

/-- Modelled from the spec: `set_target_returning_rep`.  Installs `v` for the
class of target `t`; returns the representative iff it transitioned from
unknown to known, `none` (inner) if the class already held the same value.
A conflicting value, or an out-of-range index, is a fatal condition (outer
`none`, modelling the Rust panic). -/
def PartitionWitness.set_target_returning_rep (w : PartitionWitness) (t v : Nat) :
    Option (PartitionWitness × Option Nat) :=
  match w.representative_map[t]? with
  | none => none
  | some r =>
    match w.values[r]? with
    | none => none
    | some none => some (⟨w.values.set r (some v), w.representative_map⟩, some r)
    | some (some x) => if x = v then some (w, none) else none

/-- Modelled from the spec: `set_target` (used for seeding the inputs);
same as `set_target_returning_rep` but discards the representative. -/
def PartitionWitness.set_target (w : PartitionWitness) (t v : Nat) :
    Option PartitionWitness :=
  (w.set_target_returning_rep t v).map Prod.fst

/-- Modelled from the spec: `try_get_target` — the value of `t`'s class if
known, else `none`; never blocks, never infers. -/
def PartitionWitness.try_get_target (w : PartitionWitness) (t : Nat) : Option Nat :=
  match w.representative_map[t]? with
  | none => none
  | some r => (w.values[r]?).join

/-- `for (t, v) in pw.target_values { witness.set_target(t, v); }` -/
def seed_targets (w : PartitionWitness) : List (Nat × Nat) → Option PartitionWitness
  | [] => some w
  | (t, v) :: rest =>
    match w.set_target t v with
    | none => none
    | some w2 => seed_targets w2 rest

/-- A synchronous generator: `run` on the current witness yields the produced
(target, value) pairs and the `finished` flag; `watch_list` and `id` are used
only by diagnostics and registry construction. -/
structure Generator where
  run : PartitionWitness → List (Nat × Nat) × Bool
  watch_list : List Nat
  id : Nat

/-- An asynchronous generator (`AsyncHintRef`-backed): its `run` additionally
sees its own invocation count, which stands for the generator's internal
channel-polling state (whether the external response has arrived yet). -/
structure AsyncGenerator where
  run : Nat → PartitionWitness → List (Nat × Nat) × Bool

/-- The scheduler's mutable state: the witness, the per-generator expiry
flags, the count of not-yet-expired generators, and the ghost invocation
counters. -/
structure GenState where
  witness : PartitionWitness
  generator_is_expired : List Bool
  remaining_generators : Nat
  run_counts : List Nat
  deriving DecidableEq, Repr

/-- The buffer-drain block: merge each produced pair into the witness via
`set_target_returning_rep`, collecting (in order) the representatives that
became newly known.  A conflict or out-of-range index is fatal (`none`). -/
def merge_generated_values (w : PartitionWitness) :
    List (Nat × Nat) → Option (PartitionWitness × List Nat)
  | [] => some (w, [])
  | (t, v) :: rest =>
    match w.set_target_returning_rep t v with
    | none => none
    | some (w2, orep) =>
      match merge_generated_values w2 rest with
      | none => none
      | some (w3, reps) => some (w3, orep.toList ++ reps)

/-- The enqueue block: for each newly-known representative, look up its
watchers and keep those not currently expired. -/
def enqueue_watchers (generator_indices_by_watches : List (Nat × List Nat))
    (generator_is_expired : List Bool) (reps : List Nat) : List Nat :=
  reps.flatMap (fun r =>
    match generator_indices_by_watches.lookup r with
    | none => []
    | some watchers => watchers.filter (fun i => ! generator_is_expired.getD i false))

/-- One iteration of the `for generator_idx in pending` body of
`generate_witness`: skip if expired; run; on finish mark expired and
decrement `remaining_generators`; merge produced values; enqueue watchers of
newly-known representatives.  `.error` models a Rust panic and carries the
ghost run counts at the point of the panic. -/
def step_generator (generators : List Generator)
    (generator_indices_by_watches : List (Nat × List Nat))
    (st : GenState) (next_pending : List Nat) (generator_idx : Nat) :
    Except (List Nat) (GenState × List Nat) :=
  match st.generator_is_expired[generator_idx]? with
  | none => .error st.run_counts
  | some true => .ok (st, next_pending)
  | some false =>
    match generators[generator_idx]? with
    | none => .error st.run_counts
    | some g =>
      let rb := g.run st.witness
      let expired2 := if rb.2 then st.generator_is_expired.set generator_idx true
        else st.generator_is_expired
      let remaining2 := if rb.2 then st.remaining_generators - 1
        else st.remaining_generators
      let counts2 := st.run_counts.set generator_idx
        (st.run_counts.getD generator_idx 0 + 1)
      match merge_generated_values st.witness rb.1 with
      | none => .error counts2
      | some (w2, reps) =>
        .ok (⟨w2, expired2, remaining2, counts2⟩,
          next_pending ++ enqueue_watchers generator_indices_by_watches expired2 reps)

/-- One round of `generate_witness`: process the pending indices in order,
threading the state and accumulating `next_pending`. -/
def run_round_aux (generators : List Generator)
    (generator_indices_by_watches : List (Nat × List Nat)) :
    GenState → List Nat → List Nat → Except (List Nat) (GenState × List Nat)
  | st, next, [] => .ok (st, next)
  | st, next, i :: rest =>
    match step_generator generators generator_indices_by_watches st next i with
    | .error c => .error c
    | .ok (st2, next2) => run_round_aux generators generator_indices_by_watches st2 next2 rest

/-- One round of `generate_witness`, started with an empty `next_pending`. -/
def run_round (generators : List Generator)
    (generator_indices_by_watches : List (Nat × List Nat))
    (st : GenState) (pending : List Nat) : Except (List Nat) (GenState × List Nat) :=
  run_round_aux generators generator_indices_by_watches st [] pending

/-- Outcome of the fixpoint `while` loop.  `fuelOut` marks exhaustion of the
fuel bound used to express the loop as a total function; the development
proves it unreachable for the synchronous loop at the bound used by
`generate_witness`. -/
inductive LoopResult where
  | ok (st : GenState)
  | fatal (run_counts : List Nat)
  | fuelOut (st : GenState) (pending : List Nat)
  deriving DecidableEq, Repr

/-- `while !pending.is_empty()` of `generate_witness`, with fuel. -/
def fixpoint_loop (generators : List Generator)
    (generator_indices_by_watches : List (Nat × List Nat)) :
    Nat → GenState → List Nat → LoopResult
  | fuel, st, pending =>
    if pending.isEmpty then .ok st
    else
      match fuel with
      | 0 => .fuelOut st pending
      | fuel2 + 1 =>
        match run_round generators generator_indices_by_watches st pending with
        | .error c => .fatal c
        | .ok (st2, next) =>
          fixpoint_loop generators generator_indices_by_watches fuel2 st2 next

/-- Number of representatives still unknown in the store; the termination
measure of the synchronous loop. -/
def unknown_count (w : PartitionWitness) : Nat :=
  w.values.countP (fun v => v.isNone)

/-- `GenerateWitnessError` (witness.rs lines 18–21): the structured error of
`generate_witness`, carrying only the unpopulated targets. -/
inductive GenerateWitnessError where
  | GeneratorsNotRun (targets : List Nat)
  deriving DecidableEq, Repr

/-- The unpopulated-target collection of the two failure paths: for every
non-expired generator, every target in its watch list still unknown. -/
def unpopulated_targets (generators : List Generator) (witness : PartitionWitness)
    (generator_is_expired : List Bool) : List Nat :=
  (List.range generator_is_expired.length).flatMap (fun i =>
    if generator_is_expired.getD i false then []
    else
      match generators[i]? with
      | none => []
      | some g => g.watch_list.filter (fun t => (witness.try_get_target t).isNone))

/-- The non-expired generators' diagnostic identities, as collected by
`get_generator_error`. -/
def generators_not_run_ids (generators : List Generator)
    (generator_is_expired : List Bool) : List Nat :=
  (List.range generator_is_expired.length).flatMap (fun i =>
    if generator_is_expired.getD i false then []
    else
      match generators[i]? with
      | none => []
      | some g => [g.id])

/-- Result of `generate_witness`.  `fatal` models a panic; the ghost run
counts are returned alongside (second component of `generate_witness`). -/
inductive GWResult where
  | ok (st : GenState)
  | err (e : GenerateWitnessError)
  | fatal
  | fuelOut (st : GenState) (pending : List Nat)
  deriving DecidableEq, Repr

def GWResult.isFuelOut : GWResult → Bool
  | .fuelOut _ _ => true
  | _ => false

/-- The ghost invocation counters at the end of the loop, in every outcome. -/
def LoopResult.final_run_counts : LoopResult → List Nat
  | .ok st => st.run_counts
  | .fatal c => c
  | .fuelOut st _ => st.run_counts

/-- The scheduler state right before the loop: pending will be all indices,
nothing expired, `remaining = N`, no run yet. -/
def init_state (generators : List Generator) (w : PartitionWitness) : GenState :=
  ⟨w, List.replicate generators.length false, generators.length,
    List.replicate generators.length 0⟩

/-- `generate_witness` (witness.rs lines 25–120): seed the inputs, run the
fixpoint loop over all generator indices, and on exit either succeed
(`remaining == 0`) or return `GeneratorsNotRun` with the unpopulated targets.
The second component is the ghost per-generator invocation count. -/
def generate_witness (generators : List Generator)
    (generator_indices_by_watches : List (Nat × List Nat))
    (representative_map : List Nat) (inputs : List (Nat × Nat)) :
    GWResult × List Nat :=
  match seed_targets (PartitionWitness.new representative_map) inputs with
  | none => (.fatal, List.replicate generators.length 0)
  | some w =>
    match fixpoint_loop generators generator_indices_by_watches
        (unknown_count w + 1) (init_state generators w)
        (List.range generators.length) with
    | .ok st =>
      (if st.remaining_generators > 0 then
        .err (.GeneratorsNotRun
          (unpopulated_targets generators st.witness st.generator_is_expired))
      else .ok st, st.run_counts)
    | .fatal c => (.fatal, c)
    | .fuelOut st p => (.fuelOut st p, st.run_counts)

/-- One iteration of the `for generator_idx in pending` body of
`fill_witness_values`: like `step_generator`, except that an index present in
the async side table runs its async generator (seeing its own invocation
count) and, when not finished, is unconditionally pushed into `next_pending`
before the watcher enqueues. -/
def fill_step (generators : List Generator)
    (async_generators : List (Nat × AsyncGenerator))
    (generator_indices_by_watches : List (Nat × List Nat))
    (st : GenState) (next_pending : List Nat) (generator_idx : Nat) :
    Except (List Nat) (GenState × List Nat) :=
  match st.generator_is_expired[generator_idx]? with
  | none => .error st.run_counts
  | some true => .ok (st, next_pending)
  | some false =>
    match async_generators.lookup generator_idx with
    | some ag =>
      let c := st.run_counts.getD generator_idx 0
      let rb := ag.run c st.witness
      let expired2 := if rb.2 then st.generator_is_expired.set generator_idx true
        else st.generator_is_expired
      let remaining2 := if rb.2 then st.remaining_generators - 1
        else st.remaining_generators
      let counts2 := st.run_counts.set generator_idx (c + 1)
      let next2 := if rb.2 then next_pending else next_pending ++ [generator_idx]
      match merge_generated_values st.witness rb.1 with
      | none => .error counts2
      | some (w2, reps) =>
        .ok (⟨w2, expired2, remaining2, counts2⟩,
          next2 ++ enqueue_watchers generator_indices_by_watches expired2 reps)
    | none => step_generator generators generator_indices_by_watches st next_pending generator_idx

/-- One round of `fill_witness_values`. -/
def fill_round_aux (generators : List Generator)
    (async_generators : List (Nat × AsyncGenerator))
    (generator_indices_by_watches : List (Nat × List Nat)) :
    GenState → List Nat → List Nat → Except (List Nat) (GenState × List Nat)
  | st, next, [] => .ok (st, next)
  | st, next, i :: rest =>
    match fill_step generators async_generators generator_indices_by_watches st next i with
    | .error c => .error c
    | .ok (st2, next2) =>
      fill_round_aux generators async_generators generator_indices_by_watches st2 next2 rest

/-- One round of `fill_witness_values`, started with an empty `next_pending`. -/
def fill_round (generators : List Generator)
    (async_generators : List (Nat × AsyncGenerator))
    (generator_indices_by_watches : List (Nat × List Nat))
    (st : GenState) (pending : List Nat) : Except (List Nat) (GenState × List Nat) :=
  fill_round_aux generators async_generators generator_indices_by_watches st [] pending

/-- `while !pending.is_empty()` of `fill_witness_values`.  The fuel is a
caller-supplied round bound: unlike the purely synchronous loop, the async
busy-polling loop need not terminate (it spins until the external response
arrives), so no intrinsic bound exists. -/
def fill_loop (generators : List Generator)
    (async_generators : List (Nat × AsyncGenerator))
    (generator_indices_by_watches : List (Nat × List Nat)) :
    Nat → GenState → List Nat → LoopResult
  | fuel, st, pending =>
    if pending.isEmpty then .ok st
    else
      match fuel with
      | 0 => .fuelOut st pending
      | fuel2 + 1 =>
        match fill_round generators async_generators generator_indices_by_watches st pending with
        | .error c => .fatal c
        | .ok (st2, next) =>
          fill_loop generators async_generators generator_indices_by_watches fuel2 st2 next

/-- `get_generator_error` (witness.rs lines 275–302): a single anyhow message
formatted from the two diagnostic lists. -/
def get_generator_error (generators : List Generator) (witness : PartitionWitness)
    (generator_is_expired : List Bool) : String :=
  "Witness generation failed; generators not run: " ++
    toString (generators_not_run_ids generators generator_is_expired) ++
    "; unpopulated targets: " ++
    toString (unpopulated_targets generators witness generator_is_expired)

/-- Result of `fill_witness_values`; its error is the single formatted
message of `get_generator_error`. -/
inductive FillResult where
  | ok (st : GenState)
  | err (msg : String)
  | fatal (run_counts : List Nat)
  | fuelOut (st : GenState) (pending : List Nat)
  deriving DecidableEq, Repr

/-- `fill_witness_values` (witness.rs lines 186–273): the hint-aware variant
of the scheduler, with the async side table and a caller-supplied round
bound. -/
def fill_witness_values (generators : List Generator)
    (async_generators : List (Nat × AsyncGenerator))
    (generator_indices_by_watches : List (Nat × List Nat))
    (representative_map : List Nat) (inputs : List (Nat × Nat)) (fuel : Nat) :
    FillResult :=
  match seed_targets (PartitionWitness.new representative_map) inputs with
  | none => .fatal (List.replicate generators.length 0)
  | some w =>
    match fill_loop generators async_generators generator_indices_by_watches
        fuel (init_state generators w) (List.range generators.length) with
    | .ok st =>
      if st.remaining_generators > 0 then
        .err (get_generator_error generators st.witness st.generator_is_expired)
      else .ok st
    | .fatal c => .fatal c
    | .fuelOut st p => .fuelOut st p

/-!
### Remote prover (`remote.rs`)

`RemoteProver::prove` is modelled over an abstract proving service: a
function from the poll-attempt number to the `GetProofResponse` that poll
returns.  The model records the number of polls performed and of one-second
sleeps taken; the three panics of the source (`failure` status, timeout
after `MAX_RETRIES`, and `unwrap` of an absent result) are explicit
outcomes.
-/

/-- `GetProofResponse`: id, status string, and optional result payload
(standing for the serialized proof + output JSON). -/
structure GetProofResponse where
  id : String
  status : String
  result : Option Nat
  deriving DecidableEq, Repr

/-- `MAX_RETRIES` (remote.rs line 67). -/
def MAX_RETRIES : Nat := 120

/-- Outcome of the polling `for` loop: the final response (after a break on
success or after exhausting retries), or the panic on a `failure` status.
`polls` counts `get_proof` calls, `sleeps` counts one-second sleeps. -/
inductive PollOutcome where
  | done (r : GetProofResponse) (polls : Nat) (sleeps : Nat)
  | failurePanic (id : String) (polls : Nat) (sleeps : Nat)
  deriving DecidableEq, Repr

/-- The `for _ in 0..MAX_RETRIES` loop of `RemoteProver::prove`: poll, break
on "success", panic on "failure", else sleep one second and retry. -/
def poll_loop (service : Nat → GetProofResponse) :
    Nat → GetProofResponse → Nat → Nat → PollOutcome
  | 0, last, polls, sleeps => .done last polls sleeps
  | fuel + 1, _, polls, sleeps =>
    let r := service polls
    if r.status = "success" then .done r (polls + 1) sleeps
    else if r.status = "failure" then .failurePanic r.id (polls + 1) sleeps
    else poll_loop service fuel r (polls + 1) (sleeps + 1)

def PollOutcome.polls : PollOutcome → Nat
  | .done _ p _ => p
  | .failurePanic _ p _ => p

def PollOutcome.sleeps : PollOutcome → Nat
  | .done _ _ s => s
  | .failurePanic _ _ s => s

/-- Result of `RemoteProver::prove`: the deserialized payload, or one of the
three panics (failure status, timeout, missing result). -/
inductive ProveResult where
  | ok (payload : Nat) (polls : Nat) (sleeps : Nat)
  | panicFailure (id : String) (polls : Nat) (sleeps : Nat)
  | panicTimeout (id : String) (polls : Nat) (sleeps : Nat)
  | panicNoResult (polls : Nat) (sleeps : Nat)
  deriving DecidableEq, Repr

/-- `RemoteProver::prove` (remote.rs lines 40–100), from the polling loop
on: run the loop with `MAX_RETRIES` and an initially empty response; panic
on a "failure" status; after the loop panic unless the status is "success";
then unwrap and deserialize the result. -/
def RemoteProver_prove (service : Nat → GetProofResponse) : ProveResult :=
  match poll_loop service MAX_RETRIES ⟨ "" , "" , none⟩ 0 0 with
  | .failurePanic i p s => .panicFailure i p s
  | .done r p s =>
    if r.status = "success" then
      match r.result with
      | some payload => .ok payload p s
      | none => .panicNoResult p s
    else .panicTimeout r.id p s

def ProveResult.polls : ProveResult → Nat
  | .ok _ p _ => p
  | .panicFailure _ p _ => p
  | .panicTimeout _ p _ => p
  | .panicNoResult p _ => p

def ProveResult.sleeps : ProveResult → Nat
  | .ok _ _ s => s
  | .panicFailure _ _ s => s
  | .panicTimeout _ _ s => s
  | .panicNoResult _ s => s

/-- A service that reports "pending" on the first two polls and then
"success" with the given payload. -/
def svc_pending_success (payload : Nat) : Nat → GetProofResponse :=
  fun k => if k < 2 then ⟨ "pid" , "pending" , none⟩
    else ⟨ "pid" , "success" , some payload⟩

/-- A service that reports "failure" on every poll. -/
def svc_fail_first : Nat → GetProofResponse :=
  fun _ => ⟨ "pid" , "failure" , none⟩

/-- A service that reports "pending" forever. -/
def svc_always_pending : Nat → GetProofResponse :=
  fun _ => ⟨ "pid" , "pending" , none⟩

/-!
### Concrete scenario instances

Used by the example-driven claims and as concrete inputs for witness
theorems.
-/

/-- Chain scenario: G1 watches wire 0 and produces wire 1. -/
def chain_g1 : Generator :=
  ⟨fun w => match w.try_get_target 0 with
    | some v => ([(1, v + 1)], true)
    | none => ([], false), [0], 1⟩

/-- Chain scenario: G2 watches wire 1 and produces wire 2. -/
def chain_g2 : Generator :=
  ⟨fun w => match w.try_get_target 1 with
    | some v => ([(2, v + 1)], true)
    | none => ([], false), [1], 2⟩

/-- Chain scenario: G3 watches wire 2 and produces wire 3. -/
def chain_g3 : Generator :=
  ⟨fun w => match w.try_get_target 2 with
    | some v => ([(3, v + 1)], true)
    | none => ([], false), [2], 3⟩

def chain_generators : List Generator := [chain_g1, chain_g2, chain_g3]

/-- Watcher index of the chain: wire i's class is watched by generator i. -/
def chain_watches : List (Nat × List Nat) := [(0, [0]), (1, [1]), (2, [2])]

/-- Four wires, each its own equivalence class. -/
def chain_rep_map : List Nat := [0, 1, 2, 3]

/-- The seed makes only G1 runnable: wire 0 = 5. -/
def chain_inputs : List (Nat × Nat) := [(0, 5)]

/-- The chain's witness after seeding. -/
def chain_witness0 : PartitionWitness := ⟨[some 5, none, none, none], chain_rep_map⟩

/-- The chain's scheduler state at the start of round 1. -/
def chain_st0 : GenState := init_state chain_generators chain_witness0

/-- A generator that never finishes and watches wire 0, with the given
diagnostic id (used to exhibit the error value's shape). -/
def stuck_generator (gid : Nat) : Generator := ⟨fun _ => ([], false), [0], gid⟩

/-- A generator with an empty watch list that finishes on its first run. -/
def finish_now_generator : Generator := ⟨fun _ => ([], true), [], 5⟩

/-- Placeholder registry entry for an index served by the async side table
(never consulted by `fill_step` for such an index). -/
def async_dummy_generator : Generator := ⟨fun _ => ([], false), [], 0⟩

/-- An async generator whose external response arrives at polling round `n`:
its `run` reports finished exactly from its `n`-th invocation on, producing
no pairs. -/
def async_arrival (n : Nat) : AsyncGenerator :=
  ⟨fun c _ => ([], decide (n ≤ c + 1))⟩

/-- An async generator that immediately produces wire 0 = 9 and finishes
(used to exercise intra-round merging on the hint-aware path). -/
def async_producer : AsyncGenerator := ⟨fun _ _ => ([(0, 9)], true)⟩

/-- A representative is known in the store. -/
def PartitionWitness.known_rep (w : PartitionWitness) (r : Nat) : Bool :=
  w.values[r]?.join.isSome

/-! ### Value Store lemmas -/

lemma countP_isNone_set_some (l : List (Option Nat)) (i : Nat) (v : Nat)
    (h : l[i]? = some none) :
    (l.set i (some v)).countP (fun o => o.isNone) + 1 = l.countP (fun o => o.isNone) := by
  induction l generalizing i with
  | nil => simp at h
  | cons a t ih =>
    cases i with
    | zero =>
      simp at h
      subst h
      simp [List.countP_cons]
    | succ j =>
      simp at h
      have := ih j h
      simp [List.countP_cons]
      omega

lemma set_target_returning_rep_some_new {w w2 : PartitionWitness} {t v r : Nat}
    (h : w.set_target_returning_rep t v = some (w2, some r)) :
    w.representative_map[t]? = some r ∧ w.values[r]? = some none ∧
      w2 = ⟨w.values.set r (some v), w.representative_map⟩ := by
  unfold PartitionWitness.set_target_returning_rep at h
  cases hm : w.representative_map[t]? with
  | none => simp [hm] at h
  | some r2 =>
    simp only [hm] at h
    cases hv : w.values[r2]? with
    | none => simp [hv] at h
    | some o =>
      cases o with
      | none =>
        simp only [hv, Option.some.injEq, Prod.mk.injEq] at h
        obtain ⟨h1, h2⟩ := h
        subst h2
        exact ⟨rfl, hv, h1.symm⟩
      | some x =>
        simp only [hv] at h
        by_cases hx : x = v <;> simp [hx] at h

lemma set_target_returning_rep_some_noop {w w2 : PartitionWitness} {t v : Nat}
    (h : w.set_target_returning_rep t v = some (w2, none)) : w2 = w := by
  unfold PartitionWitness.set_target_returning_rep at h
  cases hm : w.representative_map[t]? with
  | none => simp [hm] at h
  | some r2 =>
    simp only [hm] at h
    cases hv : w.values[r2]? with
    | none => simp [hv] at h
    | some o =>
      cases o with
      | none => simp [hv] at h
      | some x =>
        simp only [hv] at h
        by_cases hx : x = v <;> simp [hx] at h
        exact h.symm

lemma set_target_returning_rep_rep_map {w w2 : PartitionWitness} {t v : Nat} {o : Option Nat}
    (h : w.set_target_returning_rep t v = some (w2, o)) :
    w2.representative_map = w.representative_map := by
  cases o with
  | none => rw [set_target_returning_rep_some_noop h]
  | some r => rw [(set_target_returning_rep_some_new h).2.2]

lemma set_target_returning_rep_known_mono {w w2 : PartitionWitness} {t v : Nat} {o : Option Nat}
    (h : w.set_target_returning_rep t v = some (w2, o)) (r : Nat)
    (hk : w.known_rep r = true) : w2.known_rep r = true := by
  cases o with
  | none => rw [set_target_returning_rep_some_noop h]; exact hk
  | some r2 =>
    obtain ⟨_, hv, hw2⟩ := set_target_returning_rep_some_new h
    subst hw2
    unfold PartitionWitness.known_rep at hk ⊢
    by_cases hr : r2 = r
    · subst hr
      rw [hv] at hk
      simp at hk
    · simp only [List.getElem?_set_ne hr]
      exact hk

lemma set_target_returning_rep_new_known {w w2 : PartitionWitness} {t v r : Nat}
    (h : w.set_target_returning_rep t v = some (w2, some r)) :
    w.known_rep r = false ∧ w2.known_rep r = true := by
  obtain ⟨hm, hv, hw2⟩ := set_target_returning_rep_some_new h
  subst hw2
  constructor
  · unfold PartitionWitness.known_rep
    rw [hv]
    rfl
  · unfold PartitionWitness.known_rep
    have hlt : r < w.values.length := by
      by_contra hge
      rw [List.getElem?_eq_none (Nat.le_of_not_lt hge)] at hv
      exact Option.noConfusion hv
    simp [List.getElem?_set_eq_of_lt _ hlt]

lemma set_target_returning_rep_unknown_count {w w2 : PartitionWitness} {t v : Nat} {o : Option Nat}
    (h : w.set_target_returning_rep t v = some (w2, o)) :
    unknown_count w2 + o.toList.length = unknown_count w := by
  cases o with
  | none => rw [set_target_returning_rep_some_noop h]; rfl
  | some r =>
    obtain ⟨_, hv, hw2⟩ := set_target_returning_rep_some_new h
    subst hw2
    unfold unknown_count
    simpa using countP_isNone_set_some w.values r v hv

lemma set_target_returning_rep_preserves_value {w w2 : PartitionWitness} {t v : Nat}
    {o : Option Nat} (h : w.set_target_returning_rep t v = some (w2, o))
    (r x : Nat) (hx : w.values[r]? = some (some x)) :
    w2.values[r]? = some (some x) := by
  cases o with
  | none => rw [set_target_returning_rep_some_noop h]; exact hx
  | some r2 =>
    obtain ⟨_, hv, hw2⟩ := set_target_returning_rep_some_new h
    subst hw2
    by_cases hr : r2 = r
    · subst hr; rw [hv] at hx; exact Option.noConfusion (Option.some.inj hx)
    · simpa [List.getElem?_set_ne hr] using hx

lemma set_target_returning_rep_sets_value {w w2 : PartitionWitness} {t v r : Nat}
    (h : w.set_target_returning_rep t v = some (w2, some r)) :
    w2.representative_map[t]? = some r ∧ w2.values[r]? = some (some v) := by
  obtain ⟨hm, hv, hw2⟩ := set_target_returning_rep_some_new h
  have hlt : r < w.values.length := by
    by_contra hge
    rw [List.getElem?_eq_none (Nat.le_of_not_lt hge)] at hv
    exact Option.noConfusion hv
  subst hw2
  exact ⟨hm, by simp [List.getElem?_set_eq_of_lt _ hlt]⟩

lemma set_target_returning_rep_try_get {w w2 : PartitionWitness} {t v : Nat} {o : Option Nat}
    (h : w.set_target_returning_rep t v = some (w2, o)) :
    w2.try_get_target t = some v := by
  unfold PartitionWitness.set_target_returning_rep at h
  cases hm : w.representative_map[t]? with
  | none => simp [hm] at h
  | some r =>
    simp only [hm] at h
    cases hv : w.values[r]? with
    | none => simp [hv] at h
    | some ov =>
      cases ov with
      | none =>
        simp only [hv, Option.some.injEq, Prod.mk.injEq] at h
        obtain ⟨h1, _⟩ := h
        subst h1
        unfold PartitionWitness.try_get_target
        have hlt : r < w.values.length := by
          by_contra hge
          rw [List.getElem?_eq_none (Nat.le_of_not_lt hge)] at hv
          exact Option.noConfusion hv
        simp [hm, List.getElem?_set_eq_of_lt _ hlt]
      | some x =>
        simp only [hv] at h
        by_cases hx : x = v
        · subst hx
          rw [if_pos rfl] at h
          have h2 := Option.some.inj h
          have hw : w = w2 := congrArg Prod.fst h2
          subst hw
          unfold PartitionWitness.try_get_target
          simp [hm, hv]
        · rw [if_neg hx] at h
          exact Option.noConfusion h

lemma merge_rep_map {w w2 : PartitionWitness} {ps : List (Nat × Nat)} {reps : List Nat}
    (h : merge_generated_values w ps = some (w2, reps)) :
    w2.representative_map = w.representative_map := by
  induction ps generalizing w reps with
  | nil =>
    unfold merge_generated_values at h
    simp at h
    obtain ⟨rfl, rfl⟩ := h
    rfl
  | cons p rest ih =>
    obtain ⟨t, v⟩ := p
    unfold merge_generated_values at h
    cases hs : w.set_target_returning_rep t v with
    | none => simp [hs] at h
    | some pr =>
      obtain ⟨wa, orep⟩ := pr
      simp only [hs] at h
      cases hr : merge_generated_values wa rest with
      | none => simp [hr] at h
      | some pr2 =>
        obtain ⟨wb, repsb⟩ := pr2
        simp only [hr, Option.some.injEq, Prod.mk.injEq] at h
        obtain ⟨h1, _⟩ := h
        subst h1
        rw [ih hr, set_target_returning_rep_rep_map hs]

lemma merge_preserves_value {w w2 : PartitionWitness} {ps : List (Nat × Nat)} {reps : List Nat}
    (h : merge_generated_values w ps = some (w2, reps)) (r x : Nat)
    (hx : w.values[r]? = some (some x)) : w2.values[r]? = some (some x) := by
  induction ps generalizing w reps with
  | nil =>
    unfold merge_generated_values at h
    simp at h
    obtain ⟨rfl, rfl⟩ := h
    exact hx
  | cons p rest ih =>
    obtain ⟨t, v⟩ := p
    unfold merge_generated_values at h
    cases hs : w.set_target_returning_rep t v with
    | none => simp [hs] at h
    | some pr =>
      obtain ⟨wa, orep⟩ := pr
      simp only [hs] at h
      cases hr : merge_generated_values wa rest with
      | none => simp [hr] at h
      | some pr2 =>
        obtain ⟨wb, repsb⟩ := pr2
        simp only [hr, Option.some.injEq, Prod.mk.injEq] at h
        obtain ⟨h1, _⟩ := h
        subst h1
        exact ih hr (set_target_returning_rep_preserves_value hs r x hx)

lemma merge_known_mono {w w2 : PartitionWitness} {ps : List (Nat × Nat)} {reps : List Nat}
    (h : merge_generated_values w ps = some (w2, reps)) (r : Nat)
    (hk : w.known_rep r = true) : w2.known_rep r = true := by
  unfold PartitionWitness.known_rep at hk ⊢
  cases hv : w.values[r]? with
  | none => rw [hv] at hk; simp at hk
  | some ov =>
    cases ov with
    | none => rw [hv] at hk; simp at hk
    | some x =>
      rw [merge_preserves_value h r x hv]
      rfl

lemma try_get_some_iff (w : PartitionWitness) (t v : Nat) :
    w.try_get_target t = some v ↔
      ∃ r, w.representative_map[t]? = some r ∧ w.values[r]? = some (some v) := by
  unfold PartitionWitness.try_get_target
  cases hm : w.representative_map[t]? with
  | none => simp
  | some r => simp [Option.join_eq_some, Option.bind_eq_some]

lemma merge_preserves_try_get {w w2 : PartitionWitness} {ps : List (Nat × Nat)}
    {reps : List Nat} (h : merge_generated_values w ps = some (w2, reps)) (t v : Nat)
    (hg : w.try_get_target t = some v) : w2.try_get_target t = some v := by
  rw [try_get_some_iff] at hg ⊢
  obtain ⟨r, hm, hv⟩ := hg
  refine ⟨r, ?_, merge_preserves_value h r v hv⟩
  rw [merge_rep_map h]
  exact hm

lemma merge_new_reps {w w2 : PartitionWitness} {ps : List (Nat × Nat)} {reps : List Nat}
    (h : merge_generated_values w ps = some (w2, reps)) (r : Nat) (hr : r ∈ reps) :
    w.known_rep r = false ∧ w2.known_rep r = true := by
  induction ps generalizing w reps with
  | nil =>
    unfold merge_generated_values at h
    simp at h
    rw [h.2] at hr
    simp at hr
  | cons p rest ih =>
    obtain ⟨t, v⟩ := p
    unfold merge_generated_values at h
    cases hs : w.set_target_returning_rep t v with
    | none => simp [hs] at h
    | some pr =>
      obtain ⟨wa, orep⟩ := pr
      simp only [hs] at h
      cases hrec : merge_generated_values wa rest with
      | none => simp [hrec] at h
      | some pr2 =>
        obtain ⟨wb, repsb⟩ := pr2
        simp only [hrec, Option.some.injEq, Prod.mk.injEq] at h
        obtain ⟨h1, h2⟩ := h
        subst h1
        subst h2
        rw [List.mem_append] at hr
        rcases hr with hr | hr
        · cases orep with
          | none => simp at hr
          | some r0 =>
            simp at hr
            subst hr
            obtain ⟨hnk, hk⟩ := set_target_returning_rep_new_known hs
            exact ⟨hnk, merge_known_mono hrec r hk⟩
        · obtain ⟨hnk, hk⟩ := ih hrec hr
          refine ⟨?_, hk⟩
          by_contra hkw
          have : w.known_rep r = true := by
            cases hb : w.known_rep r
            · exact absurd hb hkw
            · rfl
          rw [set_target_returning_rep_known_mono hs r this] at hnk
          exact Bool.noConfusion hnk

lemma merge_unknown_count {w w2 : PartitionWitness} {ps : List (Nat × Nat)} {reps : List Nat}
    (h : merge_generated_values w ps = some (w2, reps)) :
    unknown_count w2 + reps.length = unknown_count w := by
  induction ps generalizing w reps with
  | nil =>
    unfold merge_generated_values at h
    simp at h
    obtain ⟨rfl, rfl⟩ := h
    rfl
  | cons p rest ih =>
    obtain ⟨t, v⟩ := p
    unfold merge_generated_values at h
    cases hs : w.set_target_returning_rep t v with
    | none => simp [hs] at h
    | some pr =>
      obtain ⟨wa, orep⟩ := pr
      simp only [hs] at h
      cases hrec : merge_generated_values wa rest with
      | none => simp [hrec] at h
      | some pr2 =>
        obtain ⟨wb, repsb⟩ := pr2
        simp only [hrec, Option.some.injEq, Prod.mk.injEq] at h
        obtain ⟨h1, h2⟩ := h
        subst h1
        subst h2
        have ha := set_target_returning_rep_unknown_count hs
        have hb := ih hrec
        simp only [List.length_append]
        omega

lemma merge_pairs_visible {w w2 : PartitionWitness} {ps : List (Nat × Nat)} {reps : List Nat}
    (h : merge_generated_values w ps = some (w2, reps)) (t v : Nat) (hmem : (t, v) ∈ ps) :
    w2.try_get_target t = some v := by
  induction ps generalizing w reps with
  | nil => simp at hmem
  | cons p rest ih =>
    obtain ⟨t0, v0⟩ := p
    unfold merge_generated_values at h
    cases hs : w.set_target_returning_rep t0 v0 with
    | none => simp [hs] at h
    | some pr =>
      obtain ⟨wa, orep⟩ := pr
      simp only [hs] at h
      cases hrec : merge_generated_values wa rest with
      | none => simp [hrec] at h
      | some pr2 =>
        obtain ⟨wb, repsb⟩ := pr2
        simp only [hrec, Option.some.injEq, Prod.mk.injEq] at h
        obtain ⟨h1, _⟩ := h
        subst h1
        rcases List.mem_cons.1 hmem with heq | hmem2
        · rw [Prod.mk.injEq] at heq
          obtain ⟨he1, he2⟩ := heq
          subst he1
          subst he2
          exact merge_preserves_try_get hrec t v (set_target_returning_rep_try_get hs)
        · exact ih hrec hmem2

/-! ### Scheduler step lemmas (synchronous) -/

/-- The loop invariant tying `remaining_generators` to the expiry flags. -/
def remaining_invariant (st : GenState) : Prop :=
  st.remaining_generators = st.generator_is_expired.countP (fun b => ! b)

lemma countP_not_set_true (l : List Bool) (i : Nat) (h : l[i]? = some false) :
    (l.set i true).countP (fun b => ! b) + 1 = l.countP (fun b => ! b) := by
  induction l generalizing i with
  | nil => simp at h
  | cons a t ih =>
    cases i with
    | zero =>
      simp at h
      subst h
      simp [List.countP_cons]
    | succ j =>
      simp at h
      have := ih j h
      simp [List.countP_cons]
      omega

lemma mem_enqueue_watchers {giw : List (Nat × List Nat)} {expired : List Bool}
    {reps : List Nat} {j : Nat} :
    j ∈ enqueue_watchers giw expired reps ↔
      ∃ r ∈ reps, ∃ ws, giw.lookup r = some ws ∧ j ∈ ws ∧
        expired.getD j false = false := by
  unfold enqueue_watchers
  rw [List.mem_flatMap]
  constructor
  · rintro ⟨r, hr, hj⟩
    cases hl : giw.lookup r with
    | none => rw [hl] at hj; simp at hj
    | some ws =>
      rw [hl] at hj
      simp only [List.mem_filter, Bool.not_eq_true'] at hj
      exact ⟨r, hr, ws, hl, hj.1, by simpa using hj.2⟩
  · rintro ⟨r, hr, ws, hl, hjw, hje⟩
    refine ⟨r, hr, ?_⟩
    rw [hl]
    simp only [List.mem_filter, Bool.not_eq_true']
    exact ⟨hjw, by simpa using hje⟩

/-- Inversion of a successful `step_generator`: either the generator was
expired and the step was a skip, or it ran and the state advanced as the
source dictates. -/
lemma step_generator_ok_cases {generators : List Generator}
    {giw : List (Nat × List Nat)} {st : GenState} {next : List Nat} {idx : Nat}
    {st2 : GenState} {next2 : List Nat}
    (h : step_generator generators giw st next idx = .ok (st2, next2)) :
    (st.generator_is_expired[idx]? = some true ∧ st2 = st ∧ next2 = next) ∨
    (∃ g w2 reps,
      st.generator_is_expired[idx]? = some false ∧
      generators[idx]? = some g ∧
      merge_generated_values st.witness (g.run st.witness).1 = some (w2, reps) ∧
      st2 = ⟨w2,
        if (g.run st.witness).2 then st.generator_is_expired.set idx true
          else st.generator_is_expired,
        if (g.run st.witness).2 then st.remaining_generators - 1
          else st.remaining_generators,
        st.run_counts.set idx (st.run_counts.getD idx 0 + 1)⟩ ∧
      next2 = next ++ enqueue_watchers giw
        (if (g.run st.witness).2 then st.generator_is_expired.set idx true
          else st.generator_is_expired) reps) := by
  unfold step_generator at h
  cases he : st.generator_is_expired[idx]? with
  | none => rw [he] at h; exact Except.noConfusion h
  | some b =>
    rw [he] at h
    cases b with
    | true =>
      simp only [Except.ok.injEq, Prod.mk.injEq] at h
      exact Or.inl ⟨rfl, h.1.symm, h.2.symm⟩
    | false =>
      cases hg : generators[idx]? with
      | none => rw [hg] at h; exact Except.noConfusion h
      | some g =>
        rw [hg] at h
        simp only at h
        cases hm : merge_generated_values st.witness (g.run st.witness).1 with
        | none => rw [hm] at h; exact Except.noConfusion h
        | some pr =>
          obtain ⟨w2, reps⟩ := pr
          rw [hm] at h
          simp only [Except.ok.injEq, Prod.mk.injEq] at h
          exact Or.inr ⟨g, w2, reps, rfl, rfl, hm, h.1.symm, h.2.symm⟩

lemma getD_false_of_set_true {l : List Bool} {i j : Nat}
    (h : (l.set i true).getD j false = false) : l.getD j false = false := by
  rw [List.getD_eq_getElem?_getD] at h ⊢
  by_cases hij : i = j
  · subst hij
    rw [List.getElem?_set_self'] at h
    cases hl : l[i]? with
    | none => simp [hl]
    | some b => rw [hl] at h; simp at h
  · rw [List.getElem?_set_ne hij] at h
    exact h

lemma getD_true_of_set_true {l : List Bool} {i j : Nat}
    (h : l.getD j false = true) : (l.set i true).getD j false = true := by
  rw [List.getD_eq_getElem?_getD] at h ⊢
  by_cases hij : i = j
  · subst hij
    rw [List.getElem?_set_self']
    cases hl : l[i]? with
    | none => rw [hl] at h; simp at h
    | some b => simp
  · rw [List.getElem?_set_ne hij]
    exact h

lemma step_known_mono {generators : List Generator} {giw : List (Nat × List Nat)}
    {st : GenState} {next : List Nat} {idx : Nat} {st2 : GenState} {next2 : List Nat}
    (h : step_generator generators giw st next idx = .ok (st2, next2)) (r : Nat)
    (hk : st.witness.known_rep r = true) : st2.witness.known_rep r = true := by
  rcases step_generator_ok_cases h with ⟨_, rfl, _⟩ | ⟨g, w2, reps, _, _, hm, rfl, _⟩
  · exact hk
  · exact merge_known_mono hm r hk

lemma step_expired_mono {generators : List Generator} {giw : List (Nat × List Nat)}
    {st : GenState} {next : List Nat} {idx : Nat} {st2 : GenState} {next2 : List Nat}
    (h : step_generator generators giw st next idx = .ok (st2, next2)) (i : Nat)
    (he : st.generator_is_expired.getD i false = true) :
    st2.generator_is_expired.getD i false = true := by
  rcases step_generator_ok_cases h with ⟨_, rfl, _⟩ | ⟨g, w2, reps, _, _, _, rfl, _⟩
  · exact he
  · simp only
    split
    · exact getD_true_of_set_true he
    · exact he

lemma step_next_elem {generators : List Generator} {giw : List (Nat × List Nat)}
    {st : GenState} {next : List Nat} {idx : Nat} {st2 : GenState} {next2 : List Nat}
    (h : step_generator generators giw st next idx = .ok (st2, next2)) (j : Nat)
    (hj : j ∈ next2) :
    j ∈ next ∨
      (st.generator_is_expired.getD j false = false ∧
        ∃ r ws, giw.lookup r = some ws ∧ j ∈ ws ∧
          st.witness.known_rep r = false ∧ st2.witness.known_rep r = true) := by
  rcases step_generator_ok_cases h with ⟨_, rfl, rfl⟩ | ⟨g, w2, reps, he, _, hm, rfl, rfl⟩
  · exact Or.inl hj
  · rw [List.mem_append] at hj
    rcases hj with hj | hj
    · exact Or.inl hj
    · right
      rw [mem_enqueue_watchers] at hj
      obtain ⟨r, hr, ws, hl, hjw, hje⟩ := hj
      obtain ⟨hnk, hk⟩ := merge_new_reps hm r hr
      refine ⟨?_, r, ws, hl, hjw, hnk, hk⟩
      revert hje
      split
      · exact fun hje => getD_false_of_set_true hje
      · exact fun hje => hje

lemma step_next_extends {generators : List Generator} {giw : List (Nat × List Nat)}
    {st : GenState} {next : List Nat} {idx : Nat} {st2 : GenState} {next2 : List Nat}
    (h : step_generator generators giw st next idx = .ok (st2, next2)) :
    ∃ extra, next2 = next ++ extra := by
  rcases step_generator_ok_cases h with ⟨_, _, rfl⟩ | ⟨g, w2, reps, _, _, _, _, rfl⟩
  · exact ⟨[], by simp⟩
  · exact ⟨_, rfl⟩

lemma step_counts_frozen {generators : List Generator} {giw : List (Nat × List Nat)}
    {st : GenState} {next : List Nat} {idx : Nat} {st2 : GenState} {next2 : List Nat}
    (h : step_generator generators giw st next idx = .ok (st2, next2)) (i : Nat)
    (he : st.generator_is_expired[i]? = some true) :
    st2.run_counts.getD i 0 = st.run_counts.getD i 0 := by
  rcases step_generator_ok_cases h with ⟨_, rfl, _⟩ | ⟨g, w2, reps, hef, _, _, rfl, _⟩
  · rfl
  · have hne : idx ≠ i := by
      intro heq
      rw [heq, he] at hef
      exact Bool.noConfusion (Option.some.inj hef)
    simp only
    rw [List.getD_eq_getElem?_getD, List.getElem?_set_ne hne,
      ← List.getD_eq_getElem?_getD]

lemma step_inv {generators : List Generator} {giw : List (Nat × List Nat)}
    {st : GenState} {next : List Nat} {idx : Nat} {st2 : GenState} {next2 : List Nat}
    (h : step_generator generators giw st next idx = .ok (st2, next2))
    (hinv : remaining_invariant st) : remaining_invariant st2 := by
  rcases step_generator_ok_cases h with ⟨_, rfl, _⟩ | ⟨g, w2, reps, he, _, _, rfl, _⟩
  · exact hinv
  · unfold remaining_invariant at hinv ⊢
    simp only
    split
    · have := countP_not_set_true st.generator_is_expired idx he
      omega
    · exact hinv

lemma step_no_underflow {generators : List Generator} {giw : List (Nat × List Nat)}
    {st : GenState} {next : List Nat} {idx : Nat} {st2 : GenState} {next2 : List Nat}
    (h : step_generator generators giw st next idx = .ok (st2, next2))
    (hinv : remaining_invariant st) :
    (st2.generator_is_expired = st.generator_is_expired ∧
      st2.remaining_generators = st.remaining_generators) ∨
    (1 ≤ st.remaining_generators ∧
      st2.remaining_generators + 1 = st.remaining_generators) := by
  rcases step_generator_ok_cases h with ⟨_, rfl, _⟩ | ⟨g, w2, reps, he, _, _, rfl, _⟩
  · exact Or.inl ⟨rfl, rfl⟩
  · unfold remaining_invariant at hinv
    simp only
    cases hfin : (g.run st.witness).2 with
    | false => exact Or.inl ⟨by simp, by simp⟩
    | true =>
      right
      have := countP_not_set_true st.generator_is_expired idx he
      constructor
      · omega
      · simp
        omega

lemma step_unknown_le {generators : List Generator} {giw : List (Nat × List Nat)}
    {st : GenState} {next : List Nat} {idx : Nat} {st2 : GenState} {next2 : List Nat}
    (h : step_generator generators giw st next idx = .ok (st2, next2)) :
    unknown_count st2.witness ≤ unknown_count st.witness := by
  rcases step_generator_ok_cases h with ⟨_, rfl, _⟩ | ⟨g, w2, reps, _, _, hm, rfl, _⟩
  · exact Nat.le_refl _
  · have := merge_unknown_count hm
    simp only
    omega

lemma step_unknown_lt {generators : List Generator} {giw : List (Nat × List Nat)}
    {st : GenState} {next : List Nat} {idx : Nat} {st2 : GenState} {next2 : List Nat}
    (h : step_generator generators giw st next idx = .ok (st2, next2)) (j : Nat)
    (hj : j ∈ next2) (hjn : j ∉ next) :
    unknown_count st2.witness < unknown_count st.witness := by
  rcases hc : step_generator_ok_cases h with ⟨_, heq, rfl⟩ | _
  · exact absurd hj hjn
  · clear hc
    rcases step_generator_ok_cases h with ⟨_, _, rfl⟩ | ⟨g, w2, reps, _, _, hm, rfl, rfl⟩
    · exact absurd hj hjn
    · rw [List.mem_append] at hj
      rcases hj with hj | hj
      · exact absurd hj hjn
      · rw [mem_enqueue_watchers] at hj
        obtain ⟨r, hr, _⟩ := hj
        have hlen : 1 ≤ reps.length := by
          cases reps with
          | nil => simp at hr
          | cons a t => simp
        have := merge_unknown_count hm
        simp only
        omega

lemma step_expired_some_true {generators : List Generator} {giw : List (Nat × List Nat)}
    {st : GenState} {next : List Nat} {idx : Nat} {st2 : GenState} {next2 : List Nat}
    (h : step_generator generators giw st next idx = .ok (st2, next2)) (i : Nat)
    (he : st.generator_is_expired[i]? = some true) :
    st2.generator_is_expired[i]? = some true := by
  rcases step_generator_ok_cases h with ⟨_, rfl, _⟩ | ⟨g, w2, reps, hef, _, _, rfl, _⟩
  · exact he
  · have hne : idx ≠ i := by
      intro heq
      rw [heq, he] at hef
      exact Bool.noConfusion (Option.some.inj hef)
    simp only
    split
    · rw [List.getElem?_set_ne hne]
      exact he
    · exact he

/-! ### Round lemmas (synchronous) -/

lemma round_aux_known_mono {generators : List Generator} {giw : List (Nat × List Nat)}
    {pending : List Nat} {st : GenState} {next : List Nat}
    {stF : GenState} {nextF : List Nat}
    (h : run_round_aux generators giw st next pending = .ok (stF, nextF)) (r : Nat)
    (hk : st.witness.known_rep r = true) : stF.witness.known_rep r = true := by
  induction pending generalizing st next with
  | nil =>
    unfold run_round_aux at h
    simp only [Except.ok.injEq, Prod.mk.injEq] at h
    rw [← h.1]
    exact hk
  | cons i rest ih =>
    unfold run_round_aux at h
    cases hs : step_generator generators giw st next i with
    | error c => rw [hs] at h; exact Except.noConfusion h
    | ok pr =>
      obtain ⟨st1, next1⟩ := pr
      rw [hs] at h
      exact ih h (step_known_mono hs r hk)

lemma round_aux_expired_mono {generators : List Generator} {giw : List (Nat × List Nat)}
    {pending : List Nat} {st : GenState} {next : List Nat}
    {stF : GenState} {nextF : List Nat}
    (h : run_round_aux generators giw st next pending = .ok (stF, nextF)) (i : Nat)
    (he : st.generator_is_expired.getD i false = true) :
    stF.generator_is_expired.getD i false = true := by
  induction pending generalizing st next with
  | nil =>
    unfold run_round_aux at h
    simp only [Except.ok.injEq, Prod.mk.injEq] at h
    rw [← h.1]
    exact he
  | cons j rest ih =>
    unfold run_round_aux at h
    cases hs : step_generator generators giw st next j with
    | error c => rw [hs] at h; exact Except.noConfusion h
    | ok pr =>
      obtain ⟨st1, next1⟩ := pr
      rw [hs] at h
      exact ih h (step_expired_mono hs i he)

lemma round_aux_expired_some_true {generators : List Generator} {giw : List (Nat × List Nat)}
    {pending : List Nat} {st : GenState} {next : List Nat}
    {stF : GenState} {nextF : List Nat}
    (h : run_round_aux generators giw st next pending = .ok (stF, nextF)) (i : Nat)
    (he : st.generator_is_expired[i]? = some true) :
    stF.generator_is_expired[i]? = some true := by
  induction pending generalizing st next with
  | nil =>
    unfold run_round_aux at h
    simp only [Except.ok.injEq, Prod.mk.injEq] at h
    rw [← h.1]
    exact he
  | cons j rest ih =>
    unfold run_round_aux at h
    cases hs : step_generator generators giw st next j with
    | error c => rw [hs] at h; exact Except.noConfusion h
    | ok pr =>
      obtain ⟨st1, next1⟩ := pr
      rw [hs] at h
      exact ih h (step_expired_some_true hs i he)

lemma round_aux_counts_frozen {generators : List Generator} {giw : List (Nat × List Nat)}
    {pending : List Nat} {st : GenState} {next : List Nat}
    {stF : GenState} {nextF : List Nat}
    (h : run_round_aux generators giw st next pending = .ok (stF, nextF)) (i : Nat)
    (he : st.generator_is_expired[i]? = some true) :
    stF.run_counts.getD i 0 = st.run_counts.getD i 0 := by
  induction pending generalizing st next with
  | nil =>
    unfold run_round_aux at h
    simp only [Except.ok.injEq, Prod.mk.injEq] at h
    rw [← h.1]
  | cons j rest ih =>
    unfold run_round_aux at h
    cases hs : step_generator generators giw st next j with
    | error c => rw [hs] at h; exact Except.noConfusion h
    | ok pr =>
      obtain ⟨st1, next1⟩ := pr
      rw [hs] at h
      rw [ih h (step_expired_some_true hs i he), step_counts_frozen hs i he]

lemma round_aux_inv {generators : List Generator} {giw : List (Nat × List Nat)}
    {pending : List Nat} {st : GenState} {next : List Nat}
    {stF : GenState} {nextF : List Nat}
    (h : run_round_aux generators giw st next pending = .ok (stF, nextF))
    (hinv : remaining_invariant st) : remaining_invariant stF := by
  induction pending generalizing st next with
  | nil =>
    unfold run_round_aux at h
    simp only [Except.ok.injEq, Prod.mk.injEq] at h
    rw [← h.1]
    exact hinv
  | cons j rest ih =>
    unfold run_round_aux at h
    cases hs : step_generator generators giw st next j with
    | error c => rw [hs] at h; exact Except.noConfusion h
    | ok pr =>
      obtain ⟨st1, next1⟩ := pr
      rw [hs] at h
      exact ih h (step_inv hs hinv)

lemma round_aux_next_elem {generators : List Generator} {giw : List (Nat × List Nat)}
    {pending : List Nat} {st : GenState} {next : List Nat}
    {stF : GenState} {nextF : List Nat}
    (h : run_round_aux generators giw st next pending = .ok (stF, nextF)) (j : Nat)
    (hj : j ∈ nextF) :
    j ∈ next ∨
      (st.generator_is_expired.getD j false = false ∧
        ∃ r ws, giw.lookup r = some ws ∧ j ∈ ws ∧
          st.witness.known_rep r = false ∧ stF.witness.known_rep r = true) := by
  induction pending generalizing st next with
  | nil =>
    unfold run_round_aux at h
    simp only [Except.ok.injEq, Prod.mk.injEq] at h
    rw [← h.2] at hj
    exact Or.inl hj
  | cons i rest ih =>
    unfold run_round_aux at h
    cases hs : step_generator generators giw st next i with
    | error c => rw [hs] at h; exact Except.noConfusion h
    | ok pr =>
      obtain ⟨st1, next1⟩ := pr
      rw [hs] at h
      rcases ih h with hj1 | ⟨hexp, r, ws, hl, hw, hnk, hk⟩
      · rcases step_next_elem hs j hj1 with hj0 | ⟨hexp, r, ws, hl, hw, hnk, hk⟩
        · exact Or.inl hj0
        · exact Or.inr ⟨hexp, r, ws, hl, hw, hnk, round_aux_known_mono h r hk⟩
      · right
        refine ⟨?_, r, ws, hl, hw, ?_, hk⟩
        · by_contra hne
          have htrue : st.generator_is_expired.getD j false = true := by
            cases hb : st.generator_is_expired.getD j false
            · exact absurd hb hne
            · rfl
          rw [step_expired_mono hs j htrue] at hexp
          exact Bool.noConfusion hexp
        · by_contra hne
          have htrue : st.witness.known_rep r = true := by
            cases hb : st.witness.known_rep r
            · exact absurd hb hne
            · rfl
          rw [step_known_mono hs r htrue] at hnk
          exact Bool.noConfusion hnk

lemma round_aux_unknown_le {generators : List Generator} {giw : List (Nat × List Nat)}
    {pending : List Nat} {st : GenState} {next : List Nat}
    {stF : GenState} {nextF : List Nat}
    (h : run_round_aux generators giw st next pending = .ok (stF, nextF)) :
    unknown_count stF.witness ≤ unknown_count st.witness := by
  induction pending generalizing st next with
  | nil =>
    unfold run_round_aux at h
    simp only [Except.ok.injEq, Prod.mk.injEq] at h
    rw [← h.1]
  | cons i rest ih =>
    unfold run_round_aux at h
    cases hs : step_generator generators giw st next i with
    | error c => rw [hs] at h; exact Except.noConfusion h
    | ok pr =>
      obtain ⟨st1, next1⟩ := pr
      rw [hs] at h
      exact Nat.le_trans (ih h) (step_unknown_le hs)

lemma round_aux_unknown_lt {generators : List Generator} {giw : List (Nat × List Nat)}
    {pending : List Nat} {st : GenState} {next : List Nat}
    {stF : GenState} {nextF : List Nat}
    (h : run_round_aux generators giw st next pending = .ok (stF, nextF)) (j : Nat)
    (hj : j ∈ nextF) (hjn : j ∉ next) :
    unknown_count stF.witness < unknown_count st.witness := by
  induction pending generalizing st next with
  | nil =>
    unfold run_round_aux at h
    simp only [Except.ok.injEq, Prod.mk.injEq] at h
    rw [← h.2] at hj
    exact absurd hj hjn
  | cons i rest ih =>
    unfold run_round_aux at h
    cases hs : step_generator generators giw st next i with
    | error c => rw [hs] at h; exact Except.noConfusion h
    | ok pr =>
      obtain ⟨st1, next1⟩ := pr
      rw [hs] at h
      by_cases hj1 : j ∈ next1
      · exact Nat.lt_of_le_of_lt (round_aux_unknown_le h) (step_unknown_lt hs j hj1 hjn)
      · exact Nat.lt_of_lt_of_le (ih h hj1) (step_unknown_le hs)

/-! ### Loop lemmas (synchronous) -/

lemma fixpoint_loop_no_fuelOut {generators : List Generator}
    {giw : List (Nat × List Nat)} (fuel : Nat) (st : GenState) (pending : List Nat)
    (hfuel : unknown_count st.witness < fuel) (stX : GenState) (pX : List Nat) :
    fixpoint_loop generators giw fuel st pending ≠ .fuelOut stX pX := by
  induction fuel generalizing st pending with
  | zero => exact absurd hfuel (Nat.not_lt_zero _)
  | succ f ih =>
    unfold fixpoint_loop
    by_cases hp : pending.isEmpty
    · simp [hp]
    · simp only [hp, if_neg, Bool.false_eq_true, not_false_eq_true]
      cases hr : run_round generators giw st pending with
      | error c => simp
      | ok pr =>
        obtain ⟨st2, next⟩ := pr
        simp only
        cases hnext : next with
        | nil =>
          unfold fixpoint_loop
          simp
        | cons a t =>
          apply ih
          have hlt : unknown_count st2.witness < unknown_count st.witness := by
            apply round_aux_unknown_lt hr a
            · rw [hnext]; exact List.mem_cons_self a t
            · exact List.not_mem_nil a
          omega

/-- All generators expired: every entry of the expiry list is `true`. -/
def all_expired (st : GenState) : Prop :=
  ∀ b ∈ st.generator_is_expired, b = true

lemma step_all_expired (generators : List Generator) (giw : List (Nat × List Nat))
    {st : GenState} (next : List Nat) (idx : Nat)
    (hall : all_expired st) :
    step_generator generators giw st next idx = .ok (st, next) ∨
      step_generator generators giw st next idx = .error st.run_counts := by
  unfold step_generator
  cases he : st.generator_is_expired[idx]? with
  | none => exact Or.inr rfl
  | some b =>
    have hb : b ∈ st.generator_is_expired := by
      rw [List.getElem?_eq_some] at he
      obtain ⟨hlt, hg⟩ := he
      exact hg ▸ List.getElem_mem hlt
    have : b = true := hall b hb
    subst this
    exact Or.inl rfl

lemma round_aux_all_expired (generators : List Generator) (giw : List (Nat × List Nat))
    (pending : List Nat) (st : GenState) (next : List Nat)
    (hall : all_expired st) :
    run_round_aux generators giw st next pending = .ok (st, next) ∨
      run_round_aux generators giw st next pending = .error st.run_counts := by
  induction pending with
  | nil => exact Or.inl rfl
  | cons i rest ih =>
    unfold run_round_aux
    rcases step_all_expired generators giw next i hall with hs | hs
    · rw [hs]
      exact ih
    · rw [hs]
      exact Or.inr rfl

lemma fixpoint_loop_all_expired {generators : List Generator}
    {giw : List (Nat × List Nat)} (fuel : Nat) (st : GenState) (pending : List Nat)
    (hall : all_expired st) :
    (fixpoint_loop generators giw fuel st pending).final_run_counts = st.run_counts := by
  induction fuel generalizing pending with
  | zero =>
    unfold fixpoint_loop
    by_cases hp : pending.isEmpty <;> simp [hp, LoopResult.final_run_counts]
  | succ f ih =>
    unfold fixpoint_loop
    by_cases hp : pending.isEmpty
    · simp [hp, LoopResult.final_run_counts]
    · simp only [hp, Bool.false_eq_true, if_neg, not_false_eq_true]
      rcases round_aux_all_expired generators giw pending st [] hall with hr | hr
      · unfold run_round
        rw [hr]
        simp only
        exact ih []
      · unfold run_round
        rw [hr]
        simp [LoopResult.final_run_counts]

lemma step_expired_ne {generators : List Generator} {giw : List (Nat × List Nat)}
    {st : GenState} {next : List Nat} {idx : Nat} {st2 : GenState} {next2 : List Nat}
    (h : step_generator generators giw st next idx = .ok (st2, next2)) (j : Nat)
    (hne : j ≠ idx) :
    st2.generator_is_expired[j]? = st.generator_is_expired[j]? := by
  rcases step_generator_ok_cases h with ⟨_, rfl, _⟩ | ⟨g, w2, reps, _, _, _, rfl, _⟩
  · rfl
  · simp only
    split
    · rw [List.getElem?_set_ne (fun he => hne he.symm)]
    · rfl

lemma step_counts_ne {generators : List Generator} {giw : List (Nat × List Nat)}
    {st : GenState} {next : List Nat} {idx : Nat} {st2 : GenState} {next2 : List Nat}
    (h : step_generator generators giw st next idx = .ok (st2, next2)) (j : Nat)
    (hne : j ≠ idx) :
    st2.run_counts.getD j 0 = st.run_counts.getD j 0 := by
  rcases step_generator_ok_cases h with ⟨_, rfl, _⟩ | ⟨g, w2, reps, _, _, _, rfl, _⟩
  · rfl
  · simp only
    rw [List.getD_eq_getElem?_getD, List.getElem?_set_ne (fun he => hne he.symm),
      ← List.getD_eq_getElem?_getD]

lemma step_counts_len {generators : List Generator} {giw : List (Nat × List Nat)}
    {st : GenState} {next : List Nat} {idx : Nat} {st2 : GenState} {next2 : List Nat}
    (h : step_generator generators giw st next idx = .ok (st2, next2)) :
    st2.run_counts.length = st.run_counts.length := by
  rcases step_generator_ok_cases h with ⟨_, rfl, _⟩ | ⟨g, w2, reps, _, _, _, rfl, _⟩
  · rfl
  · simp

lemma getD_set_self_of_lt (l : List Nat) (i x : Nat) (h : i < l.length) :
    (l.set i x).getD i 0 = x := by
  rw [List.getD_eq_getElem?_getD, List.getElem?_set_eq_of_lt _ h]
  rfl

lemma step_run_incr {generators : List Generator} {giw : List (Nat × List Nat)}
    {st : GenState} {next : List Nat} {idx : Nat} {st2 : GenState} {next2 : List Nat}
    (h : step_generator generators giw st next idx = .ok (st2, next2))
    (hexp : st.generator_is_expired[idx]? = some false)
    (hlen : idx < st.run_counts.length) :
    st2.run_counts.getD idx 0 = st.run_counts.getD idx 0 + 1 := by
  rcases step_generator_ok_cases h with ⟨he, rfl, _⟩ | ⟨g, w2, reps, _, _, _, rfl, _⟩
  · rw [hexp] at he
    exact Bool.noConfusion (Option.some.inj he)
  · simp only
    exact getD_set_self_of_lt _ idx _ hlen

lemma round_aux_counts_all_run {generators : List Generator}
    {giw : List (Nat × List Nat)} {pending : List Nat} {st : GenState}
    {next : List Nat} {stF : GenState} {nextF : List Nat}
    (h : run_round_aux generators giw st next pending = .ok (stF, nextF))
    (hnd : pending.Nodup)
    (hexp : ∀ i ∈ pending, st.generator_is_expired[i]? = some false)
    (hlen : ∀ i ∈ pending, i < st.run_counts.length) :
    (∀ i ∈ pending, stF.run_counts.getD i 0 = st.run_counts.getD i 0 + 1) ∧
      (∀ i, i ∉ pending → stF.run_counts.getD i 0 = st.run_counts.getD i 0) := by
  induction pending generalizing st next with
  | nil =>
    unfold run_round_aux at h
    simp only [Except.ok.injEq, Prod.mk.injEq] at h
    rw [← h.1]
    exact ⟨fun i hi => absurd hi (List.not_mem_nil i), fun i _ => rfl⟩
  | cons j rest ih =>
    unfold run_round_aux at h
    cases hs : step_generator generators giw st next j with
    | error c => rw [hs] at h; exact Except.noConfusion h
    | ok pr =>
      obtain ⟨st1, next1⟩ := pr
      rw [hs] at h
      have hjrest : j ∉ rest := (List.nodup_cons.1 hnd).1
      have hndr : rest.Nodup := (List.nodup_cons.1 hnd).2
      have hexp1 : ∀ i ∈ rest, st1.generator_is_expired[i]? = some false := by
        intro i hi
        rw [step_expired_ne hs i (fun he => hjrest (he ▸ hi))]
        exact hexp i (List.mem_cons_of_mem j hi)
      have hlen1 : ∀ i ∈ rest, i < st1.run_counts.length := by
        intro i hi
        rw [step_counts_len hs]
        exact hlen i (List.mem_cons_of_mem j hi)
      obtain ⟨ih1, ih2⟩ := ih h hndr hexp1 hlen1
      constructor
      · intro i hi
        rcases List.mem_cons.1 hi with rfl | hir
        · rw [ih2 i hjrest,
            step_run_incr hs (hexp i hi) (hlen i hi)]
        · rw [ih1 i hir, step_counts_ne hs i (fun he => hjrest (he ▸ hir))]
      · intro i hi
        have hij : i ≠ j := fun he => hi (he ▸ List.mem_cons_self j rest)
        have hirest : i ∉ rest := fun hir => hi (List.mem_cons_of_mem j hir)
        rw [ih2 i hirest, step_counts_ne hs i hij]

/-! ### Fill (hint-aware) step lemmas -/

lemma fill_step_ok_cases {generators : List Generator}
    {async_generators : List (Nat × AsyncGenerator)} {giw : List (Nat × List Nat)}
    {st : GenState} {next : List Nat} {idx : Nat} {st2 : GenState} {next2 : List Nat}
    (h : fill_step generators async_generators giw st next idx = .ok (st2, next2)) :
    (st.generator_is_expired[idx]? = some true ∧ st2 = st ∧ next2 = next) ∨
    (∃ ag w2 reps,
      st.generator_is_expired[idx]? = some false ∧
      async_generators.lookup idx = some ag ∧
      merge_generated_values st.witness
        (ag.run (st.run_counts.getD idx 0) st.witness).1 = some (w2, reps) ∧
      st2 = ⟨w2,
        if (ag.run (st.run_counts.getD idx 0) st.witness).2 then
          st.generator_is_expired.set idx true else st.generator_is_expired,
        if (ag.run (st.run_counts.getD idx 0) st.witness).2 then
          st.remaining_generators - 1 else st.remaining_generators,
        st.run_counts.set idx (st.run_counts.getD idx 0 + 1)⟩ ∧
      next2 = (if (ag.run (st.run_counts.getD idx 0) st.witness).2 then next
          else next ++ [idx]) ++
        enqueue_watchers giw
          (if (ag.run (st.run_counts.getD idx 0) st.witness).2 then
            st.generator_is_expired.set idx true else st.generator_is_expired) reps) ∨
    (st.generator_is_expired[idx]? = some false ∧ async_generators.lookup idx = none ∧
      step_generator generators giw st next idx = .ok (st2, next2)) := by
  unfold fill_step at h
  cases he : st.generator_is_expired[idx]? with
  | none => rw [he] at h; exact Except.noConfusion h
  | some b =>
    rw [he] at h
    cases b with
    | true =>
      simp only [Except.ok.injEq, Prod.mk.injEq] at h
      exact Or.inl ⟨rfl, h.1.symm, h.2.symm⟩
    | false =>
      cases hl : async_generators.lookup idx with
      | none =>
        rw [hl] at h
        exact Or.inr (Or.inr ⟨rfl, rfl, h⟩)
      | some ag =>
        rw [hl] at h
        simp only at h
        cases hm : merge_generated_values st.witness
            (ag.run (st.run_counts.getD idx 0) st.witness).1 with
        | none => rw [hm] at h; exact Except.noConfusion h
        | some pr =>
          obtain ⟨w2, reps⟩ := pr
          rw [hm] at h
          simp only [Except.ok.injEq, Prod.mk.injEq] at h
          exact Or.inr (Or.inl ⟨ag, w2, reps, rfl, rfl, hm, h.1.symm, h.2.symm⟩)

lemma fill_step_known_mono {generators : List Generator}
    {async_generators : List (Nat × AsyncGenerator)} {giw : List (Nat × List Nat)}
    {st : GenState} {next : List Nat} {idx : Nat} {st2 : GenState} {next2 : List Nat}
    (h : fill_step generators async_generators giw st next idx = .ok (st2, next2)) (r : Nat)
    (hk : st.witness.known_rep r = true) : st2.witness.known_rep r = true := by
  rcases fill_step_ok_cases h with ⟨_, rfl, _⟩ |
      ⟨ag, w2, reps, _, _, hm, rfl, _⟩ | ⟨_, _, hs⟩
  · exact hk
  · exact merge_known_mono hm r hk
  · exact step_known_mono hs r hk

lemma fill_step_expired_mono {generators : List Generator}
    {async_generators : List (Nat × AsyncGenerator)} {giw : List (Nat × List Nat)}
    {st : GenState} {next : List Nat} {idx : Nat} {st2 : GenState} {next2 : List Nat}
    (h : fill_step generators async_generators giw st next idx = .ok (st2, next2)) (i : Nat)
    (he : st.generator_is_expired.getD i false = true) :
    st2.generator_is_expired.getD i false = true := by
  rcases fill_step_ok_cases h with ⟨_, rfl, _⟩ |
      ⟨ag, w2, reps, _, _, _, rfl, _⟩ | ⟨_, _, hs⟩
  · exact he
  · simp only
    split
    · exact getD_true_of_set_true he
    · exact he
  · exact step_expired_mono hs i he

lemma fill_step_expired_some_true {generators : List Generator}
    {async_generators : List (Nat × AsyncGenerator)} {giw : List (Nat × List Nat)}
    {st : GenState} {next : List Nat} {idx : Nat} {st2 : GenState} {next2 : List Nat}
    (h : fill_step generators async_generators giw st next idx = .ok (st2, next2)) (i : Nat)
    (he : st.generator_is_expired[i]? = some true) :
    st2.generator_is_expired[i]? = some true := by
  rcases fill_step_ok_cases h with ⟨_, rfl, _⟩ |
      ⟨ag, w2, reps, hef, _, _, rfl, _⟩ | ⟨_, _, hs⟩
  · exact he
  · have hne : idx ≠ i := by
      intro heq
      rw [heq, he] at hef
      exact Bool.noConfusion (Option.some.inj hef)
    simp only
    split
    · rw [List.getElem?_set_ne hne]
      exact he
    · exact he
  · exact step_expired_some_true hs i he

lemma fill_step_counts_frozen {generators : List Generator}
    {async_generators : List (Nat × AsyncGenerator)} {giw : List (Nat × List Nat)}
    {st : GenState} {next : List Nat} {idx : Nat} {st2 : GenState} {next2 : List Nat}
    (h : fill_step generators async_generators giw st next idx = .ok (st2, next2)) (i : Nat)
    (he : st.generator_is_expired[i]? = some true) :
    st2.run_counts.getD i 0 = st.run_counts.getD i 0 := by
  rcases fill_step_ok_cases h with ⟨_, rfl, _⟩ |
      ⟨ag, w2, reps, hef, _, _, rfl, _⟩ | ⟨_, _, hs⟩
  · rfl
  · have hne : idx ≠ i := by
      intro heq
      rw [heq, he] at hef
      exact Bool.noConfusion (Option.some.inj hef)
    simp only
    rw [List.getD_eq_getElem?_getD, List.getElem?_set_ne hne,
      ← List.getD_eq_getElem?_getD]
  · exact step_counts_frozen hs i he

lemma fill_step_inv {generators : List Generator}
    {async_generators : List (Nat × AsyncGenerator)} {giw : List (Nat × List Nat)}
    {st : GenState} {next : List Nat} {idx : Nat} {st2 : GenState} {next2 : List Nat}
    (h : fill_step generators async_generators giw st next idx = .ok (st2, next2))
    (hinv : remaining_invariant st) : remaining_invariant st2 := by
  rcases fill_step_ok_cases h with ⟨_, rfl, _⟩ |
      ⟨ag, w2, reps, he, _, _, rfl, _⟩ | ⟨_, _, hs⟩
  · exact hinv
  · unfold remaining_invariant at hinv ⊢
    simp only
    split
    · have := countP_not_set_true st.generator_is_expired idx he
      omega
    · exact hinv
  · exact step_inv hs hinv

lemma fill_step_no_underflow {generators : List Generator}
    {async_generators : List (Nat × AsyncGenerator)} {giw : List (Nat × List Nat)}
    {st : GenState} {next : List Nat} {idx : Nat} {st2 : GenState} {next2 : List Nat}
    (h : fill_step generators async_generators giw st next idx = .ok (st2, next2))
    (hinv : remaining_invariant st) :
    (st2.generator_is_expired = st.generator_is_expired ∧
      st2.remaining_generators = st.remaining_generators) ∨
    (1 ≤ st.remaining_generators ∧
      st2.remaining_generators + 1 = st.remaining_generators) := by
  rcases fill_step_ok_cases h with ⟨_, rfl, _⟩ |
      ⟨ag, w2, reps, he, _, _, rfl, _⟩ | ⟨_, _, hs⟩
  · exact Or.inl ⟨rfl, rfl⟩
  · unfold remaining_invariant at hinv
    simp only
    cases hfin : (ag.run (st.run_counts.getD idx 0) st.witness).2 with
    | false => exact Or.inl ⟨by simp, by simp⟩
    | true =>
      right
      have := countP_not_set_true st.generator_is_expired idx he
      constructor
      · omega
      · simp
        omega
  · exact step_no_underflow hs hinv

lemma fill_step_next_extends {generators : List Generator}
    {async_generators : List (Nat × AsyncGenerator)} {giw : List (Nat × List Nat)}
    {st : GenState} {next : List Nat} {idx : Nat} {st2 : GenState} {next2 : List Nat}
    (h : fill_step generators async_generators giw st next idx = .ok (st2, next2)) :
    ∃ extra, next2 = next ++ extra := by
  rcases fill_step_ok_cases h with ⟨_, _, rfl⟩ |
      ⟨ag, w2, reps, _, _, _, _, rfl⟩ | ⟨_, _, hs⟩
  · exact ⟨[], by simp⟩
  · cases hfin : (ag.run (st.run_counts.getD idx 0) st.witness).2
    · refine ⟨[idx] ++ enqueue_watchers giw (if (ag.run (st.run_counts.getD idx 0) st.witness).2 then st.generator_is_expired.set idx true else st.generator_is_expired) reps, ?_⟩
      rw [hfin]
      simp
    · refine ⟨enqueue_watchers giw (if (ag.run (st.run_counts.getD idx 0) st.witness).2 then st.generator_is_expired.set idx true else st.generator_is_expired) reps, ?_⟩
      rw [hfin]
      simp
  · exact step_next_extends hs

lemma fill_step_expired_ne {generators : List Generator}
    {async_generators : List (Nat × AsyncGenerator)} {giw : List (Nat × List Nat)}
    {st : GenState} {next : List Nat} {idx : Nat} {st2 : GenState} {next2 : List Nat}
    (h : fill_step generators async_generators giw st next idx = .ok (st2, next2)) (j : Nat)
    (hne : j ≠ idx) :
    st2.generator_is_expired[j]? = st.generator_is_expired[j]? := by
  rcases fill_step_ok_cases h with ⟨_, rfl, _⟩ |
      ⟨ag, w2, reps, _, _, _, rfl, _⟩ | ⟨_, _, hs⟩
  · rfl
  · simp only
    split
    · rw [List.getElem?_set_ne (fun he => hne he.symm)]
    · rfl
  · exact step_expired_ne hs j hne

lemma getElem?_set_self_true {l : List Bool} {i : Nat} (h : l[i]? = some false) :
    (l.set i true)[i]? = some true := by
  have hlt : i < l.length := by
    by_contra hge
    rw [List.getElem?_eq_none (Nat.le_of_not_lt hge)] at h
    exact Option.noConfusion h
  rw [List.getElem?_set_eq_of_lt _ hlt]

/-! ### Fill round lemmas -/

lemma fill_round_aux_known_mono {generators : List Generator}
    {async_generators : List (Nat × AsyncGenerator)} {giw : List (Nat × List Nat)}
    {pending : List Nat} {st : GenState} {next : List Nat}
    {stF : GenState} {nextF : List Nat}
    (h : fill_round_aux generators async_generators giw st next pending = .ok (stF, nextF))
    (r : Nat) (hk : st.witness.known_rep r = true) : stF.witness.known_rep r = true := by
  induction pending generalizing st next with
  | nil =>
    unfold fill_round_aux at h
    simp only [Except.ok.injEq, Prod.mk.injEq] at h
    rw [← h.1]
    exact hk
  | cons i rest ih =>
    unfold fill_round_aux at h
    cases hs : fill_step generators async_generators giw st next i with
    | error c => rw [hs] at h; exact Except.noConfusion h
    | ok pr =>
      obtain ⟨st1, next1⟩ := pr
      rw [hs] at h
      exact ih h (fill_step_known_mono hs r hk)

lemma fill_round_aux_expired_mono {generators : List Generator}
    {async_generators : List (Nat × AsyncGenerator)} {giw : List (Nat × List Nat)}
    {pending : List Nat} {st : GenState} {next : List Nat}
    {stF : GenState} {nextF : List Nat}
    (h : fill_round_aux generators async_generators giw st next pending = .ok (stF, nextF))
    (i : Nat) (he : st.generator_is_expired.getD i false = true) :
    stF.generator_is_expired.getD i false = true := by
  induction pending generalizing st next with
  | nil =>
    unfold fill_round_aux at h
    simp only [Except.ok.injEq, Prod.mk.injEq] at h
    rw [← h.1]
    exact he
  | cons j rest ih =>
    unfold fill_round_aux at h
    cases hs : fill_step generators async_generators giw st next j with
    | error c => rw [hs] at h; exact Except.noConfusion h
    | ok pr =>
      obtain ⟨st1, next1⟩ := pr
      rw [hs] at h
      exact ih h (fill_step_expired_mono hs i he)

lemma fill_round_aux_expired_some_true {generators : List Generator}
    {async_generators : List (Nat × AsyncGenerator)} {giw : List (Nat × List Nat)}
    {pending : List Nat} {st : GenState} {next : List Nat}
    {stF : GenState} {nextF : List Nat}
    (h : fill_round_aux generators async_generators giw st next pending = .ok (stF, nextF))
    (i : Nat) (he : st.generator_is_expired[i]? = some true) :
    stF.generator_is_expired[i]? = some true := by
  induction pending generalizing st next with
  | nil =>
    unfold fill_round_aux at h
    simp only [Except.ok.injEq, Prod.mk.injEq] at h
    rw [← h.1]
    exact he
  | cons j rest ih =>
    unfold fill_round_aux at h
    cases hs : fill_step generators async_generators giw st next j with
    | error c => rw [hs] at h; exact Except.noConfusion h
    | ok pr =>
      obtain ⟨st1, next1⟩ := pr
      rw [hs] at h
      exact ih h (fill_step_expired_some_true hs i he)

lemma fill_round_aux_counts_frozen {generators : List Generator}
    {async_generators : List (Nat × AsyncGenerator)} {giw : List (Nat × List Nat)}
    {pending : List Nat} {st : GenState} {next : List Nat}
    {stF : GenState} {nextF : List Nat}
    (h : fill_round_aux generators async_generators giw st next pending = .ok (stF, nextF))
    (i : Nat) (he : st.generator_is_expired[i]? = some true) :
    stF.run_counts.getD i 0 = st.run_counts.getD i 0 := by
  induction pending generalizing st next with
  | nil =>
    unfold fill_round_aux at h
    simp only [Except.ok.injEq, Prod.mk.injEq] at h
    rw [← h.1]
  | cons j rest ih =>
    unfold fill_round_aux at h
    cases hs : fill_step generators async_generators giw st next j with
    | error c => rw [hs] at h; exact Except.noConfusion h
    | ok pr =>
      obtain ⟨st1, next1⟩ := pr
      rw [hs] at h
      rw [ih h (fill_step_expired_some_true hs i he), fill_step_counts_frozen hs i he]

lemma fill_round_aux_inv {generators : List Generator}
    {async_generators : List (Nat × AsyncGenerator)} {giw : List (Nat × List Nat)}
    {pending : List Nat} {st : GenState} {next : List Nat}
    {stF : GenState} {nextF : List Nat}
    (h : fill_round_aux generators async_generators giw st next pending = .ok (stF, nextF))
    (hinv : remaining_invariant st) : remaining_invariant stF := by
  induction pending generalizing st next with
  | nil =>
    unfold fill_round_aux at h
    simp only [Except.ok.injEq, Prod.mk.injEq] at h
    rw [← h.1]
    exact hinv
  | cons j rest ih =>
    unfold fill_round_aux at h
    cases hs : fill_step generators async_generators giw st next j with
    | error c => rw [hs] at h; exact Except.noConfusion h
    | ok pr =>
      obtain ⟨st1, next1⟩ := pr
      rw [hs] at h
      exact ih h (fill_step_inv hs hinv)

lemma fill_round_aux_next_sub {generators : List Generator}
    {async_generators : List (Nat × AsyncGenerator)} {giw : List (Nat × List Nat)}
    {pending : List Nat} {st : GenState} {next : List Nat}
    {stF : GenState} {nextF : List Nat}
    (h : fill_round_aux generators async_generators giw st next pending = .ok (stF, nextF))
    (j : Nat) (hj : j ∈ next) : j ∈ nextF := by
  induction pending generalizing st next with
  | nil =>
    unfold fill_round_aux at h
    simp only [Except.ok.injEq, Prod.mk.injEq] at h
    rw [← h.2]
    exact hj
  | cons i rest ih =>
    unfold fill_round_aux at h
    cases hs : fill_step generators async_generators giw st next i with
    | error c => rw [hs] at h; exact Except.noConfusion h
    | ok pr =>
      obtain ⟨st1, next1⟩ := pr
      rw [hs] at h
      obtain ⟨extra, rfl⟩ := fill_step_next_extends hs
      exact ih h (List.mem_append_left extra hj)

/-- The unconditional re-enqueue contract: a non-expired async generator
present in the round's pending list either finishes during the round or is
in the produced `next_pending`. -/
lemma fill_round_aux_async_reenqueue {generators : List Generator}
    {async_generators : List (Nat × AsyncGenerator)} {giw : List (Nat × List Nat)}
    {pending : List Nat} {st : GenState} {next : List Nat}
    {stF : GenState} {nextF : List Nat} {idx : Nat} {ag : AsyncGenerator}
    (h : fill_round_aux generators async_generators giw st next pending = .ok (stF, nextF))
    (hpend : idx ∈ pending) (hag : async_generators.lookup idx = some ag)
    (hexp : st.generator_is_expired[idx]? = some false) :
    stF.generator_is_expired.getD idx false = true ∨ idx ∈ nextF := by
  induction pending generalizing st next with
  | nil => exact absurd hpend (List.not_mem_nil idx)
  | cons j rest ih =>
    unfold fill_round_aux at h
    cases hs : fill_step generators async_generators giw st next j with
    | error c => rw [hs] at h; exact Except.noConfusion h
    | ok pr =>
      obtain ⟨st1, next1⟩ := pr
      rw [hs] at h
      by_cases hji : idx = j
      · subst hji
        rcases fill_step_ok_cases hs with ⟨he, _, _⟩ |
            ⟨ag2, w2, reps, _, hag2, _, hst1, hnext1⟩ | ⟨_, hnone, _⟩
        · rw [hexp] at he
          exact Bool.noConfusion (Option.some.inj he)
        · cases hfin : (ag2.run (st.run_counts.getD idx 0) st.witness).2 with
          | true =>
            left
            have h1 : st1.generator_is_expired[idx]? = some true := by
              rw [hst1]
              simp only [hfin, if_pos]
              exact getElem?_set_self_true hexp
            have h2 := fill_round_aux_expired_some_true h idx h1
            rw [List.getD_eq_getElem?_getD, h2]
            rfl
          | false =>
            right
            apply fill_round_aux_next_sub h idx
            rw [hnext1]
            simp only [hfin, Bool.false_eq_true, if_neg, not_false_eq_true]
            apply List.mem_append_left
            exact List.mem_append_right next (List.mem_singleton.2 rfl)
        · rw [hag] at hnone
          exact Option.noConfusion hnone
      · have hrest : idx ∈ rest := by
          rcases List.mem_cons.1 hpend with he | he
          · exact absurd he hji
          · exact he
        have hexp1 : st1.generator_is_expired[idx]? = some false := by
          rw [fill_step_expired_ne hs idx hji]
          exact hexp
        exact ih h hrest hexp1

lemma fill_step_next_elem_sync {generators : List Generator}
    {async_generators : List (Nat × AsyncGenerator)} {giw : List (Nat × List Nat)}
    {st : GenState} {next : List Nat} {idx : Nat} {st2 : GenState} {next2 : List Nat}
    (h : fill_step generators async_generators giw st next idx = .ok (st2, next2)) (j : Nat)
    (hj : j ∈ next2) (hsync : async_generators.lookup j = none) :
    j ∈ next ∨
      (st.generator_is_expired.getD j false = false ∧
        ∃ r ws, giw.lookup r = some ws ∧ j ∈ ws ∧
          st.witness.known_rep r = false ∧ st2.witness.known_rep r = true) := by
  rcases fill_step_ok_cases h with ⟨_, rfl, rfl⟩ |
      ⟨ag, w2, reps, he, hag, hm, rfl, rfl⟩ | ⟨_, _, hs⟩
  · exact Or.inl hj
  · rw [List.mem_append] at hj
    rcases hj with hj | hj
    · split at hj
      · exact Or.inl hj
      · rw [List.mem_append] at hj
        rcases hj with hj | hj
        · exact Or.inl hj
        · rw [List.mem_singleton] at hj
          subst hj
          rw [hag] at hsync
          exact Option.noConfusion hsync
    · right
      rw [mem_enqueue_watchers] at hj
      obtain ⟨r, hr, ws, hl, hjw, hje⟩ := hj
      obtain ⟨hnk, hk⟩ := merge_new_reps hm r hr
      refine ⟨?_, r, ws, hl, hjw, hnk, hk⟩
      revert hje
      split
      · exact fun hje => getD_false_of_set_true hje
      · exact fun hje => hje
  · exact step_next_elem hs j hj

lemma fill_round_aux_next_elem_sync {generators : List Generator}
    {async_generators : List (Nat × AsyncGenerator)} {giw : List (Nat × List Nat)}
    {pending : List Nat} {st : GenState} {next : List Nat}
    {stF : GenState} {nextF : List Nat}
    (h : fill_round_aux generators async_generators giw st next pending = .ok (stF, nextF))
    (j : Nat) (hj : j ∈ nextF) (hsync : async_generators.lookup j = none) :
    j ∈ next ∨
      (st.generator_is_expired.getD j false = false ∧
        ∃ r ws, giw.lookup r = some ws ∧ j ∈ ws ∧
          st.witness.known_rep r = false ∧ stF.witness.known_rep r = true) := by
  induction pending generalizing st next with
  | nil =>
    unfold fill_round_aux at h
    simp only [Except.ok.injEq, Prod.mk.injEq] at h
    rw [← h.2] at hj
    exact Or.inl hj
  | cons i rest ih =>
    unfold fill_round_aux at h
    cases hs : fill_step generators async_generators giw st next i with
    | error c => rw [hs] at h; exact Except.noConfusion h
    | ok pr =>
      obtain ⟨st1, next1⟩ := pr
      rw [hs] at h
      rcases ih h with hj1 | ⟨hexp, r, ws, hl, hw, hnk, hk⟩
      · rcases fill_step_next_elem_sync hs j hj1 hsync with hj0 |
            ⟨hexp, r, ws, hl, hw, hnk, hk⟩
        · exact Or.inl hj0
        · exact Or.inr ⟨hexp, r, ws, hl, hw, hnk, fill_round_aux_known_mono h r hk⟩
      · right
        refine ⟨?_, r, ws, hl, hw, ?_, hk⟩
        · by_contra hne
          have htrue : st.generator_is_expired.getD j false = true := by
            cases hb : st.generator_is_expired.getD j false
            · exact absurd hb hne
            · rfl
          rw [fill_step_expired_mono hs j htrue] at hexp
          exact Bool.noConfusion hexp
        · by_contra hne
          have htrue : st.witness.known_rep r = true := by
            cases hb : st.witness.known_rep r
            · exact absurd hb hne
            · rfl
          rw [fill_step_known_mono hs r htrue] at hnk
          exact Bool.noConfusion hnk

/-! ### Loop-level invariant lemmas -/

lemma fixpoint_loop_inv {generators : List Generator} {giw : List (Nat × List Nat)}
    (fuel : Nat) (st : GenState) (pending : List Nat) {stF : GenState}
    (h : fixpoint_loop generators giw fuel st pending = .ok stF)
    (hinv : remaining_invariant st) : remaining_invariant stF := by
  induction fuel generalizing st pending with
  | zero =>
    unfold fixpoint_loop at h
    by_cases hp : pending.isEmpty
    · rw [if_pos hp] at h
      cases h
      exact hinv
    · rw [if_neg hp] at h
      exact LoopResult.noConfusion h
  | succ f ih =>
    unfold fixpoint_loop at h
    by_cases hp : pending.isEmpty
    · rw [if_pos hp] at h
      cases h
      exact hinv
    · rw [if_neg hp] at h
      cases hr : run_round generators giw st pending with
      | error c => rw [hr] at h; exact LoopResult.noConfusion h
      | ok pr =>
        obtain ⟨st2, next⟩ := pr
        rw [hr] at h
        exact ih st2 next h (round_aux_inv hr hinv)

lemma fill_loop_inv {generators : List Generator}
    {async_generators : List (Nat × AsyncGenerator)} {giw : List (Nat × List Nat)}
    (fuel : Nat) (st : GenState) (pending : List Nat) {stF : GenState}
    (h : fill_loop generators async_generators giw fuel st pending = .ok stF)
    (hinv : remaining_invariant st) : remaining_invariant stF := by
  induction fuel generalizing st pending with
  | zero =>
    unfold fill_loop at h
    by_cases hp : pending.isEmpty
    · rw [if_pos hp] at h
      cases h
      exact hinv
    · rw [if_neg hp] at h
      exact LoopResult.noConfusion h
  | succ f ih =>
    unfold fill_loop at h
    by_cases hp : pending.isEmpty
    · rw [if_pos hp] at h
      cases h
      exact hinv
    · rw [if_neg hp] at h
      cases hr : fill_round generators async_generators giw st pending with
      | error c => rw [hr] at h; exact LoopResult.noConfusion h
      | ok pr =>
        obtain ⟨st2, next⟩ := pr
        rw [hr] at h
        exact ih st2 next h (fill_round_aux_inv hr hinv)

lemma fixpoint_loop_expired_mono {generators : List Generator}
    {giw : List (Nat × List Nat)} (fuel : Nat) (st : GenState) (pending : List Nat)
    {stF : GenState} (h : fixpoint_loop generators giw fuel st pending = .ok stF)
    (i : Nat) (he : st.generator_is_expired.getD i false = true) :
    stF.generator_is_expired.getD i false = true := by
  induction fuel generalizing st pending with
  | zero =>
    unfold fixpoint_loop at h
    by_cases hp : pending.isEmpty
    · rw [if_pos hp] at h
      cases h
      exact he
    · rw [if_neg hp] at h
      exact LoopResult.noConfusion h
  | succ f ih =>
    unfold fixpoint_loop at h
    by_cases hp : pending.isEmpty
    · rw [if_pos hp] at h
      cases h
      exact he
    · rw [if_neg hp] at h
      cases hr : run_round generators giw st pending with
      | error c => rw [hr] at h; exact LoopResult.noConfusion h
      | ok pr =>
        obtain ⟨st2, next⟩ := pr
        rw [hr] at h
        exact ih st2 next h (round_aux_expired_mono hr i he)

lemma fill_loop_expired_mono {generators : List Generator}
    {async_generators : List (Nat × AsyncGenerator)} {giw : List (Nat × List Nat)}
    (fuel : Nat) (st : GenState) (pending : List Nat)
    {stF : GenState} (h : fill_loop generators async_generators giw fuel st pending = .ok stF)
    (i : Nat) (he : st.generator_is_expired.getD i false = true) :
    stF.generator_is_expired.getD i false = true := by
  induction fuel generalizing st pending with
  | zero =>
    unfold fill_loop at h
    by_cases hp : pending.isEmpty
    · rw [if_pos hp] at h
      cases h
      exact he
    · rw [if_neg hp] at h
      exact LoopResult.noConfusion h
  | succ f ih =>
    unfold fill_loop at h
    by_cases hp : pending.isEmpty
    · rw [if_pos hp] at h
      cases h
      exact he
    · rw [if_neg hp] at h
      cases hr : fill_round generators async_generators giw st pending with
      | error c => rw [hr] at h; exact LoopResult.noConfusion h
      | ok pr =>
        obtain ⟨st2, next⟩ := pr
        rw [hr] at h
        exact ih st2 next h (fill_round_aux_expired_mono hr i he)

lemma fixpoint_loop_counts_frozen {generators : List Generator}
    {giw : List (Nat × List Nat)} (fuel : Nat) (st : GenState) (pending : List Nat)
    {stF : GenState} (h : fixpoint_loop generators giw fuel st pending = .ok stF)
    (i : Nat) (he : st.generator_is_expired[i]? = some true) :
    stF.run_counts.getD i 0 = st.run_counts.getD i 0 := by
  induction fuel generalizing st pending with
  | zero =>
    unfold fixpoint_loop at h
    by_cases hp : pending.isEmpty
    · rw [if_pos hp] at h
      cases h
      rfl
    · rw [if_neg hp] at h
      exact LoopResult.noConfusion h
  | succ f ih =>
    unfold fixpoint_loop at h
    by_cases hp : pending.isEmpty
    · rw [if_pos hp] at h
      cases h
      rfl
    · rw [if_neg hp] at h
      cases hr : run_round generators giw st pending with
      | error c => rw [hr] at h; exact LoopResult.noConfusion h
      | ok pr =>
        obtain ⟨st2, next⟩ := pr
        rw [hr] at h
        rw [ih st2 next h (round_aux_expired_some_true hr i he),
          round_aux_counts_frozen hr i he]

lemma fill_loop_counts_frozen {generators : List Generator}
    {async_generators : List (Nat × AsyncGenerator)} {giw : List (Nat × List Nat)}
    (fuel : Nat) (st : GenState) (pending : List Nat)
    {stF : GenState} (h : fill_loop generators async_generators giw fuel st pending = .ok stF)
    (i : Nat) (he : st.generator_is_expired[i]? = some true) :
    stF.run_counts.getD i 0 = st.run_counts.getD i 0 := by
  induction fuel generalizing st pending with
  | zero =>
    unfold fill_loop at h
    by_cases hp : pending.isEmpty
    · rw [if_pos hp] at h
      cases h
      rfl
    · rw [if_neg hp] at h
      exact LoopResult.noConfusion h
  | succ f ih =>
    unfold fill_loop at h
    by_cases hp : pending.isEmpty
    · rw [if_pos hp] at h
      cases h
      rfl
    · rw [if_neg hp] at h
      cases hr : fill_round generators async_generators giw st pending with
      | error c => rw [hr] at h; exact LoopResult.noConfusion h
      | ok pr =>
        obtain ⟨st2, next⟩ := pr
        rw [hr] at h
        rw [ih st2 next h (fill_round_aux_expired_some_true hr i he),
          fill_round_aux_counts_frozen hr i he]

/-! ### Polling loop lemmas -/

lemma poll_loop_bounds (service : Nat → GetProofResponse) :
    ∀ (fuel : Nat) (last : GetProofResponse) (polls sleeps : Nat),
      (poll_loop service fuel last polls sleeps).polls ≤ polls + fuel ∧
        (poll_loop service fuel last polls sleeps).sleeps ≤ sleeps + fuel := by
  intro fuel
  induction fuel with
  | zero =>
    intro last polls sleeps
    unfold poll_loop
    simp [PollOutcome.polls, PollOutcome.sleeps]
  | succ f ih =>
    intro last polls sleeps
    unfold poll_loop
    by_cases hs : (service polls).status = "success"
    · simp only [hs, if_pos]
      simp [PollOutcome.polls, PollOutcome.sleeps]
    · rw [if_neg hs]
      by_cases hf : (service polls).status = "failure"
      · simp only [hf, if_pos]
        simp [PollOutcome.polls, PollOutcome.sleeps]
      · rw [if_neg hf]
        have := ih (service polls) (polls + 1) (sleeps + 1)
        constructor
        · exact Nat.le_trans this.1 (by omega)
        · exact Nat.le_trans this.2 (by omega)

lemma poll_loop_pending (service : Nat → GetProofResponse)
    (h : ∀ k, (service k).status ≠ "success" ∧ (service k).status ≠ "failure") :
    ∀ (fuel : Nat) (last : GetProofResponse) (polls sleeps : Nat),
      poll_loop service fuel last polls sleeps =
        .done (match fuel with | 0 => last | f + 1 => service (polls + f))
          (polls + fuel) (sleeps + fuel) := by
  intro fuel
  induction fuel with
  | zero =>
    intro last polls sleeps
    unfold poll_loop
    simp
  | succ f ih =>
    intro last polls sleeps
    unfold poll_loop
    rw [if_neg (h polls).1, if_neg (h polls).2]
    rw [ih (service polls) (polls + 1) (sleeps + 1)]
    cases f with
    | zero => simp
    | succ f2 =>
      simp only [PollOutcome.done.injEq]
      refine ⟨?_, by omega, by omega⟩
      show service (polls + 1 + f2) = service (polls + (f2 + 1))
      congr 1
      omega

/-! ### Remaining helper lemmas -/

lemma run_round_aux_append {generators : List Generator} {giw : List (Nat × List Nat)}
    {xs : List Nat} {st st1 : GenState} {next n1 : List Nat}
    (h : run_round_aux generators giw st next xs = .ok (st1, n1)) (rest : List Nat) :
    run_round_aux generators giw st next (xs ++ rest) =
      run_round_aux generators giw st1 n1 rest := by
  induction xs generalizing st next with
  | nil =>
    unfold run_round_aux at h
    simp only [Except.ok.injEq, Prod.mk.injEq] at h
    rw [← h.1, ← h.2]
    rfl
  | cons i t ih =>
    unfold run_round_aux at h
    rw [List.cons_append]
    show (match step_generator generators giw st next i with
      | Except.error c => Except.error c
      | Except.ok (st2, next2) =>
        run_round_aux generators giw st2 next2 (t ++ rest)) =
      run_round_aux generators giw st1 n1 rest
    cases hs : step_generator generators giw st next i with
    | error c => rw [hs] at h; exact Except.noConfusion h
    | ok pr =>
      obtain ⟨sta, nexta⟩ := pr
      rw [hs] at h
      show run_round_aux generators giw sta nexta (t ++ rest) =
        run_round_aux generators giw st1 n1 rest
      exact ih h

lemma generate_witness_counts {generators : List Generator}
    {giw : List (Nat × List Nat)} {rep_map : List Nat} {inputs : List (Nat × Nat)}
    {w : PartitionWitness}
    (hseed : seed_targets (PartitionWitness.new rep_map) inputs = some w) :
    (generate_witness generators giw rep_map inputs).2 =
      (fixpoint_loop generators giw (unknown_count w + 1) (init_state generators w)
        (List.range generators.length)).final_run_counts := by
  unfold generate_witness
  rw [hseed]
  show (match fixpoint_loop generators giw (unknown_count w + 1) (init_state generators w)
      (List.range generators.length) with
    | LoopResult.ok st =>
      (if st.remaining_generators > 0 then
        GWResult.err (GenerateWitnessError.GeneratorsNotRun
          (unpopulated_targets generators st.witness st.generator_is_expired))
      else GWResult.ok st, st.run_counts)
    | LoopResult.fatal c => (GWResult.fatal, c)
    | LoopResult.fuelOut st p => (GWResult.fuelOut st p, st.run_counts)).2 = _
  cases fixpoint_loop generators giw (unknown_count w + 1) (init_state generators w)
      (List.range generators.length) with
  | ok st => rfl
  | fatal c => rfl
  | fuelOut st p => rfl

lemma async_fill_round (n c : Nat) :
    fill_round [async_dummy_generator] [(0, async_arrival n)] []
      ⟨⟨[], []⟩, [false], 1, [c]⟩ [0] =
      if n ≤ c + 1 then .ok (⟨⟨[], []⟩, [true], 0, [c + 1]⟩, ([] : List Nat))
      else .ok (⟨⟨[], []⟩, [false], 1, [c + 1]⟩, [0]) := by
  by_cases hn : n ≤ c + 1 <;>
    simp [fill_round, fill_round_aux, fill_step, async_arrival, async_dummy_generator,
      merge_generated_values, enqueue_watchers, List.lookup, hn]

lemma async_fill_loop_ok (n : Nat) : ∀ (fuel c : Nat), c < n → n ≤ c + fuel →
    fill_loop [async_dummy_generator] [(0, async_arrival n)] [] fuel
      ⟨⟨[], []⟩, [false], 1, [c]⟩ [0] = .ok ⟨⟨[], []⟩, [true], 0, [n]⟩ := by
  intro fuel
  induction fuel with
  | zero =>
    intro c hc hn
    omega
  | succ f ih =>
    intro c hc hn
    unfold fill_loop
    rw [if_neg (by simp)]
    rw [async_fill_round]
    by_cases hfin : n ≤ c + 1
    · rw [if_pos hfin]
      show fill_loop [async_dummy_generator] [(0, async_arrival n)] [] f
        ⟨⟨[], []⟩, [true], 0, [c + 1]⟩ [] = _
      have hcn : c + 1 = n := by omega
      rw [hcn]
      unfold fill_loop
      rw [if_pos (by simp)]
    · rw [if_neg hfin]
      show fill_loop [async_dummy_generator] [(0, async_arrival n)] [] f
        ⟨⟨[], []⟩, [false], 1, [c + 1]⟩ [0] = _
      exact ih (c + 1) (by omega) (by omega)

lemma async_fill_loop_out (n : Nat) : ∀ (fuel c : Nat), c + fuel < n →
    fill_loop [async_dummy_generator] [(0, async_arrival n)] [] fuel
      ⟨⟨[], []⟩, [false], 1, [c]⟩ [0] =
      .fuelOut ⟨⟨[], []⟩, [false], 1, [c + fuel]⟩ [0] := by
  intro fuel
  induction fuel with
  | zero =>
    intro c hc
    unfold fill_loop
    rw [if_neg (by simp)]
    show LoopResult.fuelOut ⟨⟨[], []⟩, [false], 1, [c]⟩ [0] = _
    rw [Nat.add_zero]
  | succ f ih =>
    intro c hc
    unfold fill_loop
    rw [if_neg (by simp)]
    rw [async_fill_round]
    rw [if_neg (by omega)]
    show fill_loop [async_dummy_generator] [(0, async_arrival n)] [] f
      ⟨⟨[], []⟩, [false], 1, [c + 1]⟩ [0] = _
    rw [ih (c + 1) (by omega)]
    have : c + 1 + f = c + (f + 1) := by omega
    rw [this]

lemma generate_witness_of_loop_ok {generators : List Generator}
    {giw : List (Nat × List Nat)} {rep_map : List Nat} {inputs : List (Nat × Nat)}
    {w : PartitionWitness} {st : GenState}
    (hseed : seed_targets (PartitionWitness.new rep_map) inputs = some w)
    (hloop : fixpoint_loop generators giw (unknown_count w + 1) (init_state generators w)
      (List.range generators.length) = .ok st) :
    (generate_witness generators giw rep_map inputs).1 =
      if st.remaining_generators > 0 then
        .err (.GeneratorsNotRun
          (unpopulated_targets generators st.witness st.generator_is_expired))
      else .ok st := by
  unfold generate_witness
  rw [hseed]
  show (match fixpoint_loop generators giw (unknown_count w + 1) (init_state generators w)
      (List.range generators.length) with
    | LoopResult.ok st =>
      (if st.remaining_generators > 0 then
        GWResult.err (GenerateWitnessError.GeneratorsNotRun
          (unpopulated_targets generators st.witness st.generator_is_expired))
      else GWResult.ok st, st.run_counts)
    | LoopResult.fatal c => (GWResult.fatal, c)
    | LoopResult.fuelOut st p => (GWResult.fuelOut st p, st.run_counts)).1 = _
  rw [hloop]

lemma fill_witness_values_of_loop_ok {generators : List Generator}
    {async_generators : List (Nat × AsyncGenerator)} {giw : List (Nat × List Nat)}
    {rep_map : List Nat} {inputs : List (Nat × Nat)} {fuel : Nat}
    {w : PartitionWitness} {st : GenState}
    (hseed : seed_targets (PartitionWitness.new rep_map) inputs = some w)
    (hloop : fill_loop generators async_generators giw fuel (init_state generators w)
      (List.range generators.length) = .ok st) :
    fill_witness_values generators async_generators giw rep_map inputs fuel =
      if st.remaining_generators > 0 then
        .err (get_generator_error generators st.witness st.generator_is_expired)
      else .ok st := by
  unfold fill_witness_values
  rw [hseed]
  show (match fill_loop generators async_generators giw fuel (init_state generators w)
      (List.range generators.length) with
    | LoopResult.ok st =>
      if st.remaining_generators > 0 then
        FillResult.err (get_generator_error generators st.witness st.generator_is_expired)
      else FillResult.ok st
    | LoopResult.fatal c => FillResult.fatal c
    | LoopResult.fuelOut st p => FillResult.fuelOut st p) = _
  rw [hloop]

lemma mem_unpopulated_targets {generators : List Generator}
    {witness : PartitionWitness} {expired : List Bool} {t : Nat} :
    t ∈ unpopulated_targets generators witness expired ↔
      ∃ i, i < expired.length ∧ expired.getD i false = false ∧
        ∃ g, generators[i]? = some g ∧ t ∈ g.watch_list ∧
          (witness.try_get_target t).isNone = true := by
  unfold unpopulated_targets
  simp only [List.mem_flatMap, List.mem_range]
  constructor
  · rintro ⟨i, hi, hmem⟩
    refine ⟨i, hi, ?_⟩
    by_cases he : expired.getD i false = true
    · rw [if_pos he] at hmem
      exact absurd hmem (List.not_mem_nil t)
    · rw [if_neg he] at hmem
      have he2 : expired.getD i false = false := by
        cases hb : expired.getD i false
        · rfl
        · exact absurd hb he
      refine ⟨he2, ?_⟩
      cases hg : generators[i]? with
      | none =>
        rw [hg] at hmem
        exact absurd hmem (List.not_mem_nil t)
      | some g =>
        rw [hg] at hmem
        rw [List.mem_filter] at hmem
        exact ⟨g, rfl, hmem.1, hmem.2⟩
  · rintro ⟨i, hi, he, g, hg, hw, hnone⟩
    refine ⟨i, hi, ?_⟩
    rw [if_neg (by rw [he]; exact Bool.false_ne_true)]
    rw [hg]
    rw [List.mem_filter]
    exact ⟨hw, hnone⟩

lemma fill_witness_values_of_loop_fuelOut {generators : List Generator}
    {async_generators : List (Nat × AsyncGenerator)} {giw : List (Nat × List Nat)}
    {rep_map : List Nat} {inputs : List (Nat × Nat)} {fuel : Nat}
    {w : PartitionWitness} {st : GenState} {p : List Nat}
    (hseed : seed_targets (PartitionWitness.new rep_map) inputs = some w)
    (hloop : fill_loop generators async_generators giw fuel (init_state generators w)
      (List.range generators.length) = .fuelOut st p) :
    fill_witness_values generators async_generators giw rep_map inputs fuel =
      .fuelOut st p := by
  unfold fill_witness_values
  rw [hseed]
  show (match fill_loop generators async_generators giw fuel (init_state generators w)
      (List.range generators.length) with
    | LoopResult.ok st =>
      if st.remaining_generators > 0 then
        FillResult.err (get_generator_error generators st.witness st.generator_is_expired)
      else FillResult.ok st
    | LoopResult.fatal c => FillResult.fatal c
    | LoopResult.fuelOut st p => FillResult.fuelOut st p) = _
  rw [hloop]

lemma fill_round_aux_append {generators : List Generator}
    {async_generators : List (Nat × AsyncGenerator)} {giw : List (Nat × List Nat)}
    {xs : List Nat} {st st1 : GenState} {next n1 : List Nat}
    (h : fill_round_aux generators async_generators giw st next xs = .ok (st1, n1))
    (rest : List Nat) :
    fill_round_aux generators async_generators giw st next (xs ++ rest) =
      fill_round_aux generators async_generators giw st1 n1 rest := by
  induction xs generalizing st next with
  | nil =>
    unfold fill_round_aux at h
    simp only [Except.ok.injEq, Prod.mk.injEq] at h
    rw [← h.1, ← h.2]
    rfl
  | cons i t ih =>
    unfold fill_round_aux at h
    rw [List.cons_append]
    show (match fill_step generators async_generators giw st next i with
      | Except.error c => Except.error c
      | Except.ok (st2, next2) =>
        fill_round_aux generators async_generators giw st2 next2 (t ++ rest)) =
      fill_round_aux generators async_generators giw st1 n1 rest
    cases hs : fill_step generators async_generators giw st next i with
    | error c => rw [hs] at h; exact Except.noConfusion h
    | ok pr =>
      obtain ⟨sta, nexta⟩ := pr
      rw [hs] at h
      show fill_round_aux generators async_generators giw sta nexta (t ++ rest) =
        fill_round_aux generators async_generators giw st1 n1 rest
      exact ih h

/-! ## Claim theorems -/

/-- C4.  The purely synchronous fixpoint loop always terminates: for every
input, `generate_witness` — whose loop is run with fuel one more than the
number of unknown representatives — never exhausts its fuel, because a round
that produces a non-empty `next_pending` strictly decreases the number of
unknown representatives. -/
theorem generate_witness_always_terminates :
    ∀ (generators : List Generator) (giw : List (Nat × List Nat))
      (rep_map : List Nat) (inputs : List (Nat × Nat)),
      ((generate_witness generators giw rep_map inputs).1).isFuelOut = false := by
  intro generators giw rep_map inputs
  unfold generate_witness
  cases hseed : seed_targets (PartitionWitness.new rep_map) inputs with
  | none => rfl
  | some w =>
    show ((match fixpoint_loop generators giw (unknown_count w + 1) (init_state generators w)
        (List.range generators.length) with
      | LoopResult.ok st =>
        (if st.remaining_generators > 0 then
          GWResult.err (GenerateWitnessError.GeneratorsNotRun
            (unpopulated_targets generators st.witness st.generator_is_expired))
        else GWResult.ok st, st.run_counts)
      | LoopResult.fatal c => (GWResult.fatal, c)
      | LoopResult.fuelOut st p => (GWResult.fuelOut st p, st.run_counts)).1).isFuelOut
      = false
    cases hl : fixpoint_loop generators giw (unknown_count w + 1) (init_state generators w)
        (List.range generators.length) with
    | ok st =>
      by_cases h0 : st.remaining_generators > 0 <;>
        simp [h0, GWResult.isFuelOut]
    | fatal c => rfl
    | fuelOut st p =>
      exact absurd hl (fixpoint_loop_no_fuelOut _ _ _ (Nat.lt_succ_self _) st p)

/-- C5 counterexample.  The claim says the failure value names the diagnostic
identities of the stuck generators; but `generate_witness` returns
`GeneratorsNotRun` carrying only the unpopulated targets: two runs that
differ only in the stuck generator's id produce the very same error value,
so no generator identity is in it. -/
theorem error_value_omits_generator_identities :
    (generate_witness [stuck_generator 42] [] [0] []).1 =
      .err (.GeneratorsNotRun [0]) ∧
    (generate_witness [stuck_generator 7] [] [0] []).1 =
      .err (.GeneratorsNotRun [0]) ∧
    (stuck_generator 42).id ≠ (stuck_generator 7).id := by
  refine ⟨rfl, rfl, by decide⟩

/-- C5 amended.  On non-convergence `generate_witness` returns the structured
`GeneratorsNotRun` value listing exactly the still-unknown watched wires of
the non-expired generators (no identities), while `fill_witness_values`
returns a single message formatted from both diagnostic lists (ids of
generators not run, unpopulated targets). -/
theorem failure_diagnostics_characterized :
    (∀ (generators : List Generator) (giw : List (Nat × List Nat))
      (rep_map : List Nat) (inputs : List (Nat × Nat)) (w : PartitionWitness)
      (st : GenState),
      seed_targets (PartitionWitness.new rep_map) inputs = some w →
      fixpoint_loop generators giw (unknown_count w + 1) (init_state generators w)
        (List.range generators.length) = .ok st →
      0 < st.remaining_generators →
      (generate_witness generators giw rep_map inputs).1 =
        .err (.GeneratorsNotRun
          (unpopulated_targets generators st.witness st.generator_is_expired))) ∧
    (∀ (generators : List Generator) (async_generators : List (Nat × AsyncGenerator))
      (giw : List (Nat × List Nat)) (rep_map : List Nat) (inputs : List (Nat × Nat))
      (fuel : Nat) (w : PartitionWitness) (st : GenState),
      seed_targets (PartitionWitness.new rep_map) inputs = some w →
      fill_loop generators async_generators giw fuel (init_state generators w)
        (List.range generators.length) = .ok st →
      0 < st.remaining_generators →
      fill_witness_values generators async_generators giw rep_map inputs fuel =
        .err (get_generator_error generators st.witness st.generator_is_expired)) ∧
    (∀ (generators : List Generator) (witness : PartitionWitness)
      (expired : List Bool),
      get_generator_error generators witness expired =
        "Witness generation failed; generators not run: " ++
          toString (generators_not_run_ids generators expired) ++
          "; unpopulated targets: " ++
          toString (unpopulated_targets generators witness expired)) ∧
    (∀ (generators : List Generator) (witness : PartitionWitness)
      (expired : List Bool) (t : Nat),
      t ∈ unpopulated_targets generators witness expired ↔
        ∃ i, i < expired.length ∧ expired.getD i false = false ∧
          ∃ g, generators[i]? = some g ∧ t ∈ g.watch_list ∧
            (witness.try_get_target t).isNone = true) := by
  refine ⟨?_, ?_, ?_, ?_⟩
  · intro generators giw rep_map inputs w st hseed hloop h0
    rw [generate_witness_of_loop_ok hseed hloop, if_pos h0]
  · intro generators agens giw rep_map inputs fuel w st hseed hloop h0
    rw [fill_witness_values_of_loop_ok hseed hloop, if_pos h0]
  · intro generators witness expired
    rfl
  · intro generators witness expired t
    exact mem_unpopulated_targets

/-- C5 amended witness: the stuck single-generator instance exercises the
`generate_witness` failure path. -/
theorem failure_diagnostics_characterized_witness :
    (generate_witness [stuck_generator 42] [] [0] []).1 =
      .err (.GeneratorsNotRun
        (unpopulated_targets [stuck_generator 42]
          (⟨[none], [0]⟩ : PartitionWitness) [false])) :=
  failure_diagnostics_characterized.1 [stuck_generator 42] [] [0] []
    ⟨[none], [0]⟩ ⟨⟨[none], [0]⟩, [false], 1, [1]⟩ rfl rfl (by decide)

/-- C6 (Value Store contract, modelled from the spec).  Setting a wire whose
class already holds the same value is a no-op reporting no newly-known
representative; setting a different value is the fatal conflict outcome; and
a batch merge never reports a representative that was already known before
the batch. -/
theorem value_store_set_contract :
    (∀ (w : PartitionWitness) (t v r : Nat),
      w.representative_map[t]? = some r → w.values[r]? = some (some v) →
      w.set_target_returning_rep t v = some (w, none)) ∧
    (∀ (w : PartitionWitness) (t v v2 r : Nat),
      w.representative_map[t]? = some r → w.values[r]? = some (some v) →
      v2 ≠ v → w.set_target_returning_rep t v2 = none) ∧
    (∀ (w w2 : PartitionWitness) (ps : List (Nat × Nat)) (reps : List Nat) (r : Nat),
      merge_generated_values w ps = some (w2, reps) →
      w.known_rep r = true → r ∉ reps) := by
  refine ⟨?_, ?_, ?_⟩
  · intro w t v r hm hv
    unfold PartitionWitness.set_target_returning_rep
    simp only [hm, hv]
    simp
  · intro w t v v2 r hm hv hne
    unfold PartitionWitness.set_target_returning_rep
    simp only [hm, hv]
    rw [if_neg (fun he => hne he.symm)]
  · intro w w2 ps reps r hmerge hk hr
    have := (merge_new_reps hmerge r hr).1
    rw [hk] at this
    exact Bool.noConfusion this

/-- C6 witness: on a one-wire store already holding 3, re-setting 3 is a
no-op, setting 5 is the conflict outcome, and the merge of the re-set
reports no newly-known representative. -/
theorem value_store_set_contract_witness :
    (⟨[some 3], [0]⟩ : PartitionWitness).set_target_returning_rep 0 3 =
      some (⟨[some 3], [0]⟩, none) ∧
    (⟨[some 3], [0]⟩ : PartitionWitness).set_target_returning_rep 0 5 = none ∧
    0 ∉ ([] : List Nat) :=
  ⟨value_store_set_contract.1 ⟨[some 3], [0]⟩ 0 3 0 rfl rfl,
    value_store_set_contract.2.1 ⟨[some 3], [0]⟩ 0 3 5 0 rfl rfl (by decide),
    value_store_set_contract.2.2 ⟨[some 3], [0]⟩ ⟨[some 3], [0]⟩ [(0, 3)] [] 0 rfl rfl⟩

/-- C7 counterexample.  For the chain G1 → G2 → G3 registered in index
order, with the seed making only G1 runnable, the loop does NOT take 3
rounds: two rounds of fuel already complete it, with every generator
finished (values are merged immediately within round 1, so G2 and G3 run
successfully in the very first round). -/
theorem chain_scheduler_three_rounds_refuted :
    fixpoint_loop chain_generators chain_watches 2 chain_st0 [0, 1, 2] =
      .ok ⟨⟨[some 5, some 6, some 7, some 8], [0, 1, 2, 3]⟩,
        [true, true, true], 0, [1, 1, 1]⟩ ∧
    run_round chain_generators chain_watches chain_st0 [0, 1, 2] =
      .ok (⟨⟨[some 5, some 6, some 7, some 8], [0, 1, 2, 3]⟩,
        [true, true, true], 0, [1, 1, 1]⟩, [1, 2]) := by
  exact ⟨rfl, rfl⟩

/-- C7 amended.  For the chain G1 → G2 → G3 (index order, seed wakes only
G1): all three generators finish — each already during round 1, because
produced values are merged into the store before the next pending generator
runs — and the loop takes exactly 2 rounds: fuel 2 reaches the fixpoint
(round 2 merely skips the stale wake-ups and enqueues nothing) while fuel 1
does not suffice. -/
theorem chain_scheduler_two_rounds :
    generate_witness chain_generators chain_watches chain_rep_map chain_inputs =
      (.ok ⟨⟨[some 5, some 6, some 7, some 8], [0, 1, 2, 3]⟩,
        [true, true, true], 0, [1, 1, 1]⟩, [1, 1, 1]) ∧
    fixpoint_loop chain_generators chain_watches 2 chain_st0 [0, 1, 2] =
      .ok ⟨⟨[some 5, some 6, some 7, some 8], [0, 1, 2, 3]⟩,
        [true, true, true], 0, [1, 1, 1]⟩ ∧
    fixpoint_loop chain_generators chain_watches 1 chain_st0 [0, 1, 2] =
      .fuelOut ⟨⟨[some 5, some 6, some 7, some 8], [0, 1, 2, 3]⟩,
        [true, true, true], 0, [1, 1, 1]⟩ [1, 2] := by
  exact ⟨rfl, rfl, rfl⟩

/-- C1.  In a synchronous round (and for a synchronous generator in a
hint-aware round), every index in the produced `next_pending` is a
registered watcher of a representative that transitioned from unknown to
known during that round, and was not expired at the start of the round
(expiry only grows, so non-expiry at enqueue time implies non-expiry at
round start); a generator that merely reported "not finished" is never
re-enqueued without such a newly-known watched representative. -/
theorem next_pending_only_nonexpired_watchers_of_new :
    (∀ (generators : List Generator) (giw : List (Nat × List Nat))
      (st stF : GenState) (pending nextF : List Nat),
      run_round generators giw st pending = .ok (stF, nextF) →
      ∀ j ∈ nextF,
        st.generator_is_expired.getD j false = false ∧
        ∃ r ws, giw.lookup r = some ws ∧ j ∈ ws ∧
          st.witness.known_rep r = false ∧ stF.witness.known_rep r = true) ∧
    (∀ (generators : List Generator) (async_generators : List (Nat × AsyncGenerator))
      (giw : List (Nat × List Nat)) (st stF : GenState) (pending nextF : List Nat)
      (j : Nat),
      fill_round generators async_generators giw st pending = .ok (stF, nextF) →
      j ∈ nextF → async_generators.lookup j = none →
      st.generator_is_expired.getD j false = false ∧
      ∃ r ws, giw.lookup r = some ws ∧ j ∈ ws ∧
        st.witness.known_rep r = false ∧ stF.witness.known_rep r = true) := by
  constructor
  · intro generators giw st stF pending nextF h j hj
    rcases round_aux_next_elem h j hj with hmem | hgood
    · exact absurd hmem (List.not_mem_nil j)
    · exact hgood
  · intro generators agens giw st stF pending nextF j h hj hsync
    rcases fill_round_aux_next_elem_sync h j hj hsync with hmem | hgood
    · exact absurd hmem (List.not_mem_nil j)
    · exact hgood

/-- C1 witness: in round 1 of the chain scenario, generator 1 is enqueued
for round 2; it is non-expired at round start and watches representative 1,
newly known in that round. -/
theorem next_pending_only_nonexpired_watchers_of_new_witness :
    chain_st0.generator_is_expired.getD 1 false = false ∧
    ∃ r ws, chain_watches.lookup r = some ws ∧ 1 ∈ ws ∧
      chain_st0.witness.known_rep r = false ∧
      (⟨⟨[some 5, some 6, some 7, some 8], [0, 1, 2, 3]⟩,
        [true, true, true], 0, [1, 1, 1]⟩ : GenState).witness.known_rep r = true :=
  next_pending_only_nonexpired_watchers_of_new.1 chain_generators chain_watches
    chain_st0 ⟨⟨[some 5, some 6, some 7, some 8], [0, 1, 2, 3]⟩,
      [true, true, true], 0, [1, 1, 1]⟩ [0, 1, 2] [1, 2] rfl 1 (by decide)

/-- C3.  An async generator (index in the async side table) that is pending
and not expired either finishes during the round or is in the produced
`next_pending` — unconditional re-enqueue, independent of any watched
representative.  Consequently, a lone async generator whose external
response arrives at polling round `n` finishes exactly at round `n`: the
run succeeds with `n` rounds of fuel (ending with the generator expired,
zero remaining, and `n` invocations — never in a stuck diagnosis), while
`n - 1` rounds are not enough. -/
theorem async_generator_unconditional_reenqueue :
    (∀ (generators : List Generator) (async_generators : List (Nat × AsyncGenerator))
      (giw : List (Nat × List Nat)) (st stF : GenState) (pending nextF : List Nat)
      (idx : Nat) (ag : AsyncGenerator),
      fill_round generators async_generators giw st pending = .ok (stF, nextF) →
      idx ∈ pending → async_generators.lookup idx = some ag →
      st.generator_is_expired[idx]? = some false →
      stF.generator_is_expired.getD idx false = true ∨ idx ∈ nextF) ∧
    (∀ n : Nat, 1 ≤ n →
      fill_witness_values [async_dummy_generator] [(0, async_arrival n)] [] [] [] n =
        .ok ⟨⟨[], []⟩, [true], 0, [n]⟩ ∧
      fill_witness_values [async_dummy_generator] [(0, async_arrival n)] [] [] []
        (n - 1) = .fuelOut ⟨⟨[], []⟩, [false], 1, [n - 1]⟩ [0]) := by
  constructor
  · intro generators agens giw st stF pending nextF idx ag h hp hl he
    exact fill_round_aux_async_reenqueue h hp hl he
  · intro n hn
    constructor
    · have h1 := async_fill_loop_ok n n 0 (by omega) (by omega)
      have hs : seed_targets (PartitionWitness.new ([] : List Nat))
          ([] : List (Nat × Nat)) = some (PartitionWitness.new []) := rfl
      have h1b : fill_loop [async_dummy_generator] [(0, async_arrival n)] [] n
          (init_state [async_dummy_generator] (PartitionWitness.new []))
          (List.range [async_dummy_generator].length) =
          .ok ⟨⟨[], []⟩, [true], 0, [n]⟩ := h1
      have h2 := fill_witness_values_of_loop_ok hs h1b
      simpa using h2
    · have h1 := async_fill_loop_out n (n - 1) 0 (by omega)
      rw [Nat.zero_add] at h1
      have hs : seed_targets (PartitionWitness.new ([] : List Nat))
          ([] : List (Nat × Nat)) = some (PartitionWitness.new []) := rfl
      have h1b : fill_loop [async_dummy_generator] [(0, async_arrival n)] [] (n - 1)
          (init_state [async_dummy_generator] (PartitionWitness.new []))
          (List.range [async_dummy_generator].length) =
          .fuelOut ⟨⟨[], []⟩, [false], 1, [n - 1]⟩ [0] := h1
      exact fill_witness_values_of_loop_fuelOut hs h1b

/-- C3 witness: the arrival-at-round-3 async generator, after round 1, is
either expired or re-enqueued (here: re-enqueued); and at `n = 3` the whole
call succeeds with fuel 3 and fuels out at 2. -/
theorem async_generator_unconditional_reenqueue_witness :
    ((⟨⟨[], []⟩, [false], 1, [1]⟩ : GenState).generator_is_expired.getD 0 false = true ∨
      0 ∈ [0]) ∧
    (fill_witness_values [async_dummy_generator] [(0, async_arrival 3)] [] [] [] 3 =
      .ok ⟨⟨[], []⟩, [true], 0, [3]⟩ ∧
    fill_witness_values [async_dummy_generator] [(0, async_arrival 3)] [] [] [] 2 =
      .fuelOut ⟨⟨[], []⟩, [false], 1, [2]⟩ [0]) :=
  ⟨async_generator_unconditional_reenqueue.1 [async_dummy_generator]
      [(0, async_arrival 3)] [] ⟨⟨[], []⟩, [false], 1, [0]⟩
      ⟨⟨[], []⟩, [false], 1, [1]⟩ [0] [0] 0 (async_arrival 3) rfl
      (by decide) rfl rfl,
    async_generator_unconditional_reenqueue.2 3 (by decide)⟩

lemma poll_loop_succ (service : Nat → GetProofResponse) (f : Nat)
    (last : GetProofResponse) (polls sleeps : Nat) :
    poll_loop service (f + 1) last polls sleeps =
      if (service polls).status = "success" then
        .done (service polls) (polls + 1) sleeps
      else if (service polls).status = "failure" then
        .failurePanic (service polls).id (polls + 1) sleeps
      else poll_loop service f (service polls) (polls + 1) (sleeps + 1) := rfl

lemma remote_prove_polls_sleeps (service : Nat → GetProofResponse) :
    (RemoteProver_prove service).polls =
      (poll_loop service MAX_RETRIES ⟨ "" , "" , none⟩ 0 0).polls ∧
    (RemoteProver_prove service).sleeps =
      (poll_loop service MAX_RETRIES ⟨ "" , "" , none⟩ 0 0).sleeps := by
  unfold RemoteProver_prove
  cases poll_loop service MAX_RETRIES ⟨ "" , "" , none⟩ 0 0 with
  | failurePanic i p s => exact ⟨rfl, rfl⟩
  | done r p s =>
    show (if r.status = "success" then
        match r.result with
        | some payload => ProveResult.ok payload p s
        | none => ProveResult.panicNoResult p s
      else ProveResult.panicTimeout r.id p s).polls = (PollOutcome.done r p s).polls ∧
      (if r.status = "success" then
        match r.result with
        | some payload => ProveResult.ok payload p s
        | none => ProveResult.panicNoResult p s
      else ProveResult.panicTimeout r.id p s).sleeps = (PollOutcome.done r p s).sleeps
    by_cases hsucc : r.status = "success"
    · rw [if_pos hsucc]
      cases r.result with
      | some payload => exact ⟨rfl, rfl⟩
      | none => exact ⟨rfl, rfl⟩
    · rw [if_neg hsucc]
      exact ⟨rfl, rfl⟩

lemma poll_loop_first_success (service : Nat → GetProofResponse) :
    ∀ (fuel k : Nat) (last : GetProofResponse) (polls sleeps : Nat), k < fuel →
      (∀ j, j < k → (service (polls + j)).status ≠ "success" ∧
        (service (polls + j)).status ≠ "failure") →
      (service (polls + k)).status = "success" →
      poll_loop service fuel last polls sleeps =
        .done (service (polls + k)) (polls + k + 1) (sleeps + k) := by
  intro fuel
  induction fuel with
  | zero =>
    intro k last polls sleeps hk
    omega
  | succ f ih =>
    intro k last polls sleeps hk hprev hs
    rw [poll_loop_succ]
    cases k with
    | zero =>
      rw [Nat.add_zero] at hs
      rw [if_pos hs]
      rfl
    | succ k2 =>
      have h0 := hprev 0 (by omega)
      rw [Nat.add_zero] at h0
      rw [if_neg h0.1, if_neg h0.2]
      have hprev2 : ∀ j, j < k2 → (service (polls + 1 + j)).status ≠ "success" ∧
          (service (polls + 1 + j)).status ≠ "failure" := by
        intro j hj
        have := hprev (j + 1) (by omega)
        have e : polls + (j + 1) = polls + 1 + j := by omega
        rw [e] at this
        exact this
      have hs2 : (service (polls + 1 + k2)).status = "success" := by
        have e : polls + (k2 + 1) = polls + 1 + k2 := by omega
        rw [e] at hs
        exact hs
      rw [ih k2 (service polls) (polls + 1) (sleeps + 1) (by omega) hprev2 hs2]
      have e1 : polls + 1 + k2 = polls + (k2 + 1) := by omega
      have e2 : sleeps + 1 + k2 = sleeps + (k2 + 1) := by omega
      rw [e1, e2]

lemma poll_loop_first_failure (service : Nat → GetProofResponse) :
    ∀ (fuel k : Nat) (last : GetProofResponse) (polls sleeps : Nat), k < fuel →
      (∀ j, j < k → (service (polls + j)).status ≠ "success" ∧
        (service (polls + j)).status ≠ "failure") →
      (service (polls + k)).status = "failure" →
      poll_loop service fuel last polls sleeps =
        .failurePanic (service (polls + k)).id (polls + k + 1) (sleeps + k) := by
  intro fuel
  induction fuel with
  | zero =>
    intro k last polls sleeps hk
    omega
  | succ f ih =>
    intro k last polls sleeps hk hprev hs
    rw [poll_loop_succ]
    cases k with
    | zero =>
      rw [Nat.add_zero] at hs
      rw [if_neg (by rw [hs]; decide), if_pos hs]
      rfl
    | succ k2 =>
      have h0 := hprev 0 (by omega)
      rw [Nat.add_zero] at h0
      rw [if_neg h0.1, if_neg h0.2]
      have hprev2 : ∀ j, j < k2 → (service (polls + 1 + j)).status ≠ "success" ∧
          (service (polls + 1 + j)).status ≠ "failure" := by
        intro j hj
        have := hprev (j + 1) (by omega)
        have e : polls + (j + 1) = polls + 1 + j := by omega
        rw [e] at this
        exact this
      have hs2 : (service (polls + 1 + k2)).status = "failure" := by
        have e : polls + (k2 + 1) = polls + 1 + k2 := by omega
        rw [e] at hs
        exact hs
      rw [ih k2 (service polls) (polls + 1) (sleeps + 1) (by omega) hprev2 hs2]
      have e1 : polls + 1 + k2 = polls + (k2 + 1) := by omega
      have e2 : sleeps + 1 + k2 = sleeps + (k2 + 1) := by omega
      rw [e1, e2]

lemma poll_loop_pending_lt (service : Nat → GetProofResponse) :
    ∀ (fuel : Nat) (last : GetProofResponse) (polls sleeps : Nat),
      (∀ j, j < fuel → (service (polls + j)).status ≠ "success" ∧
        (service (polls + j)).status ≠ "failure") →
      poll_loop service fuel last polls sleeps =
        .done (match fuel with | 0 => last | f + 1 => service (polls + f))
          (polls + fuel) (sleeps + fuel) := by
  intro fuel
  induction fuel with
  | zero =>
    intro last polls sleeps h
    unfold poll_loop
    simp
  | succ f ih =>
    intro last polls sleeps h
    have h0 := h 0 (by omega)
    rw [Nat.add_zero] at h0
    rw [poll_loop_succ, if_neg h0.1, if_neg h0.2]
    have h2 : ∀ j, j < f → (service (polls + 1 + j)).status ≠ "success" ∧
        (service (polls + 1 + j)).status ≠ "failure" := by
      intro j hj
      have := h (j + 1) (by omega)
      have e : polls + (j + 1) = polls + 1 + j := by omega
      rw [e] at this
      exact this
    rw [ih (service polls) (polls + 1) (sleeps + 1) h2]
    cases f with
    | zero => simp
    | succ f2 =>
      simp only [PollOutcome.done.injEq]
      refine ⟨?_, by omega, by omega⟩
      show service (polls + 1 + f2) = service (polls + (f2 + 1))
      congr 1
      omega

/-- C8.  The remote prover polls the status endpoint at most `MAX_RETRIES`
(120) times with a one-second sleep between attempts.  If the first deciding
poll — the first whose status is "success" or "failure" — occurs at position
`k < 120`: on "success" the loop stops immediately and the payload is
returned after exactly `k + 1` polls and `k` sleeps (so pending, pending,
success returns after exactly 3 polls and 2 sleeps), and on "failure" it
aborts immediately after those `k + 1` polls with no further polling.  If
none of the 120 polls actually made returns "success" or "failure", the
attempts are exhausted and the call aborts fatally with the timeout panic
instead of returning a value. -/
theorem remote_prover_polling_contract :
    (∀ service : Nat → GetProofResponse,
      (RemoteProver_prove service).polls ≤ MAX_RETRIES ∧
      (RemoteProver_prove service).sleeps ≤ MAX_RETRIES) ∧
    (∀ (service : Nat → GetProofResponse) (k payload : Nat), k < MAX_RETRIES →
      (∀ j, j < k → (service j).status ≠ "success" ∧ (service j).status ≠ "failure") →
      (service k).status = "success" → (service k).result = some payload →
      RemoteProver_prove service = .ok payload (k + 1) k) ∧
    (∀ payload : Nat,
      RemoteProver_prove (svc_pending_success payload) = .ok payload 3 2) ∧
    (∀ (service : Nat → GetProofResponse) (k : Nat), k < MAX_RETRIES →
      (∀ j, j < k → (service j).status ≠ "success" ∧ (service j).status ≠ "failure") →
      (service k).status = "failure" →
      RemoteProver_prove service = .panicFailure (service k).id (k + 1) k) ∧
    (∀ service : Nat → GetProofResponse,
      (∀ k, k < MAX_RETRIES →
        (service k).status ≠ "success" ∧ (service k).status ≠ "failure") →
      RemoteProver_prove service =
        .panicTimeout (service (MAX_RETRIES - 1)).id MAX_RETRIES MAX_RETRIES) := by
  refine ⟨?_, ?_, ?_, ?_, ?_⟩
  · intro service
    obtain ⟨e1, e2⟩ := remote_prove_polls_sleeps service
    rw [e1, e2]
    have hb := poll_loop_bounds service MAX_RETRIES ⟨ "" , "" , none⟩ 0 0
    constructor
    · exact Nat.le_trans hb.1 (by omega)
    · exact Nat.le_trans hb.2 (by omega)
  · intro service k payload hk hprev hs hres
    have hprev2 : ∀ j, j < k → (service (0 + j)).status ≠ "success" ∧
        (service (0 + j)).status ≠ "failure" := by
      intro j hj
      rw [Nat.zero_add]
      exact hprev j hj
    have hs2 : (service (0 + k)).status = "success" := by
      rw [Nat.zero_add]
      exact hs
    have hl := poll_loop_first_success service MAX_RETRIES k ⟨ "" , "" , none⟩ 0 0
      hk hprev2 hs2
    rw [Nat.zero_add] at hl
    unfold RemoteProver_prove
    rw [hl]
    show (if (service k).status = "success" then
        match (service k).result with
        | some payload => ProveResult.ok payload (k + 1) k
        | none => ProveResult.panicNoResult (k + 1) k
      else ProveResult.panicTimeout (service k).id (k + 1) k) = _
    rw [if_pos hs, hres]
  · intro payload
    rfl
  · intro service k hk hprev hs
    have hprev2 : ∀ j, j < k → (service (0 + j)).status ≠ "success" ∧
        (service (0 + j)).status ≠ "failure" := by
      intro j hj
      rw [Nat.zero_add]
      exact hprev j hj
    have hs2 : (service (0 + k)).status = "failure" := by
      rw [Nat.zero_add]
      exact hs
    have hl := poll_loop_first_failure service MAX_RETRIES k ⟨ "" , "" , none⟩ 0 0
      hk hprev2 hs2
    rw [Nat.zero_add] at hl
    unfold RemoteProver_prove
    rw [hl]
  · intro service h
    have h2 : ∀ j, j < MAX_RETRIES → (service (0 + j)).status ≠ "success" ∧
        (service (0 + j)).status ≠ "failure" := by
      intro j hj
      rw [Nat.zero_add]
      exact h j hj
    have hl := poll_loop_pending_lt service MAX_RETRIES ⟨ "" , "" , none⟩ 0 0 h2
    unfold RemoteProver_prove
    rw [hl]
    show (if (service (0 + 119)).status = "success" then
        match (service (0 + 119)).result with
        | some payload => ProveResult.ok payload (0 + MAX_RETRIES) (0 + MAX_RETRIES)
        | none => ProveResult.panicNoResult (0 + MAX_RETRIES) (0 + MAX_RETRIES)
      else ProveResult.panicTimeout (service (0 + 119)).id (0 + MAX_RETRIES)
        (0 + MAX_RETRIES)) = _
    rw [if_neg (h (0 + 119) (by decide)).1]
    show ProveResult.panicTimeout (service 119).id 120 120 = _
    rfl

/-- C8 witness: the pending-pending-success service succeeds at deciding
poll 2 via the general success clause; the always-failure service aborts at
deciding poll 0; the always-pending service times out. -/
theorem remote_prover_polling_contract_witness :
    RemoteProver_prove (svc_pending_success 7) = .ok 7 3 2 ∧
    RemoteProver_prove svc_fail_first = .panicFailure "pid" 1 0 ∧
    RemoteProver_prove svc_always_pending = .panicTimeout "pid" 120 120 := by
  refine ⟨?_, ?_, ?_⟩
  · have hprev : ∀ j, j < 2 → (svc_pending_success 7 j).status ≠ "success" ∧
        (svc_pending_success 7 j).status ≠ "failure" := by
      intro j hj
      interval_cases j <;>
        exact ⟨fun h => by simp [svc_pending_success] at h,
          fun h => by simp [svc_pending_success] at h⟩
    exact remote_prover_polling_contract.2.1 (svc_pending_success 7) 2 7
      (by decide) hprev rfl rfl
  · exact remote_prover_polling_contract.2.2.2.1 svc_fail_first 0 (by decide)
      (fun j hj => absurd hj (by omega)) rfl
  · have hp : ∀ k, k < MAX_RETRIES → (svc_always_pending k).status ≠ "success" ∧
        (svc_always_pending k).status ≠ "failure" := by
      intro k hk
      refine ⟨fun h => ?_, fun h => ?_⟩ <;> simp [svc_always_pending] at h
    exact remote_prover_polling_contract.2.2.2.2 svc_always_pending hp

/-- C2.  The pending list starts as all indices 0..N, so round 1 runs every
generator exactly once regardless of the store's contents; and a call with a
single generator that finishes on its (necessarily first) run invokes `run`
exactly once over the whole call, in every outcome of the call. -/
theorem every_generator_attempted_in_round_one :
    (∀ (generators : List Generator) (giw : List (Nat × List Nat))
      (w : PartitionWitness) (stF : GenState) (nextF : List Nat),
      run_round generators giw (init_state generators w)
        (List.range generators.length) = .ok (stF, nextF) →
      ∀ i ∈ List.range generators.length, stF.run_counts.getD i 0 = 1) ∧
    (∀ (g : Generator) (giw : List (Nat × List Nat)) (rep_map : List Nat)
      (inputs : List (Nat × Nat)) (w : PartitionWitness),
      seed_targets (PartitionWitness.new rep_map) inputs = some w →
      (g.run w).2 = true →
      (generate_witness [g] giw rep_map inputs).2 = [1]) := by
  constructor
  · intro generators giw w stF nextF h i hi
    have hn : i < generators.length := List.mem_range.1 hi
    have hexp : ∀ j ∈ List.range generators.length,
        (init_state generators w).generator_is_expired[j]? = some false := by
      intro j hj
      have hjn : j < generators.length := List.mem_range.1 hj
      show (List.replicate generators.length false)[j]? = some false
      simp [List.getElem?_replicate, hjn]
    have hlen : ∀ j ∈ List.range generators.length,
        j < (init_state generators w).run_counts.length := by
      intro j hj
      have hjn : j < generators.length := List.mem_range.1 hj
      simpa [init_state] using hjn
    obtain ⟨hall, _⟩ := round_aux_counts_all_run h (List.nodup_range _) hexp hlen
    have h0 : (init_state generators w).run_counts.getD i 0 = 0 := by
      show (List.replicate generators.length (0 : Nat)).getD i 0 = 0
      rw [List.getD_eq_getElem?_getD]
      simp [List.getElem?_replicate, hn]
    rw [hall i hi, h0]
  · intro g giw rep_map inputs w hseed hrun
    rw [generate_witness_counts hseed]
    have hinit : init_state [g] w = ⟨w, [false], 1, [0]⟩ := rfl
    have hstep : step_generator [g] giw ⟨w, [false], 1, [0]⟩ [] 0 =
        match merge_generated_values w (g.run w).1 with
        | none => .error [1]
        | some (w2, reps) =>
          .ok (⟨w2, [true], 0, [1]⟩, enqueue_watchers giw [true] reps) := by
      cases hm : merge_generated_values w (g.run w).1 with
      | none =>
        simp [step_generator, hrun, hm]
      | some pr =>
        obtain ⟨w2, reps⟩ := pr
        simp [step_generator, hrun, hm]
    have hround : run_round [g] giw ⟨w, [false], 1, [0]⟩ [0] =
        match merge_generated_values w (g.run w).1 with
        | none => .error [1]
        | some (w2, reps) =>
          .ok (⟨w2, [true], 0, [1]⟩, enqueue_watchers giw [true] reps) := by
      show run_round_aux [g] giw ⟨w, [false], 1, [0]⟩ [] [0] = _
      cases hm : merge_generated_values w (g.run w).1 with
      | none =>
        unfold run_round_aux
        rw [hstep, hm]
      | some pr =>
        obtain ⟨w2, reps⟩ := pr
        unfold run_round_aux
        rw [hstep, hm]
        show run_round_aux [g] giw ⟨w2, [true], 0, [1]⟩
          (enqueue_watchers giw [true] reps) [] = _
        rfl
    show (fixpoint_loop [g] giw (unknown_count w + 1) ⟨w, [false], 1, [0]⟩
      [0]).final_run_counts = [1]
    unfold fixpoint_loop
    rw [if_neg (by simp)]
    show (match run_round [g] giw ⟨w, [false], 1, [0]⟩ [0] with
      | Except.error c => LoopResult.fatal c
      | Except.ok (st2, next) =>
        fixpoint_loop [g] giw (unknown_count w) st2 next).final_run_counts = [1]
    rw [hround]
    cases hm : merge_generated_values w (g.run w).1 with
    | none => rfl
    | some pr =>
      obtain ⟨w2, reps⟩ := pr
      show (fixpoint_loop [g] giw (unknown_count w) ⟨w2, [true], 0, [1]⟩
        (enqueue_watchers giw [true] reps)).final_run_counts = [1]
      exact fixpoint_loop_all_expired _ _ _ (by intro b hb; simpa using hb)

/-- C2 witness: the lone finish-immediately generator with an empty watch
list is run exactly once, and round 1 of the chain runs each of its three
generators exactly once. -/
theorem every_generator_attempted_in_round_one_witness :
    (generate_witness [finish_now_generator] [] [] []).2 = [1] ∧
    (∀ i ∈ List.range chain_generators.length,
      (⟨⟨[some 5, some 6, some 7, some 8], [0, 1, 2, 3]⟩,
        [true, true, true], 0, [1, 1, 1]⟩ : GenState).run_counts.getD i 0 = 1) :=
  ⟨every_generator_attempted_in_round_one.2 finish_now_generator [] [] []
      (PartitionWitness.new []) rfl rfl,
    every_generator_attempted_in_round_one.1 chain_generators chain_watches
      chain_witness0 ⟨⟨[some 5, some 6, some 7, some 8], [0, 1, 2, 3]⟩,
        [true, true, true], 0, [1, 1, 1]⟩ [1, 2] rfl⟩

/-- C9.  Scheduler state invariants of both `generate_witness` and
`fill_witness_values`: `remaining_generators` always equals the number of
non-expired indices (established at initialization and preserved by every
round and by the whole loop of both schedulers); expiry is monotone; an
expired generator's `run` is never invoked again (its invocation count is
frozen); the decrement of `remaining_generators` never underflows (a step
either leaves the expiry flags and count untouched or decrements from a
strictly positive count); and a call returns the success value exactly when
`remaining_generators` is 0 at loop exit. -/
theorem scheduler_state_invariants :
    (∀ (generators : List Generator) (w : PartitionWitness),
      remaining_invariant (init_state generators w)) ∧
    (∀ (generators : List Generator) (giw : List (Nat × List Nat))
      (st stF : GenState) (pending nextF : List Nat),
      run_round generators giw st pending = .ok (stF, nextF) →
      remaining_invariant st → remaining_invariant stF) ∧
    (∀ (generators : List Generator) (async_generators : List (Nat × AsyncGenerator))
      (giw : List (Nat × List Nat)) (st stF : GenState) (pending nextF : List Nat),
      fill_round generators async_generators giw st pending = .ok (stF, nextF) →
      remaining_invariant st → remaining_invariant stF) ∧
    (∀ (generators : List Generator) (giw : List (Nat × List Nat)) (fuel : Nat)
      (st stF : GenState) (pending : List Nat),
      fixpoint_loop generators giw fuel st pending = .ok stF →
      remaining_invariant st → remaining_invariant stF) ∧
    (∀ (generators : List Generator) (async_generators : List (Nat × AsyncGenerator))
      (giw : List (Nat × List Nat)) (fuel : Nat) (st stF : GenState) (pending : List Nat),
      fill_loop generators async_generators giw fuel st pending = .ok stF →
      remaining_invariant st → remaining_invariant stF) ∧
    (∀ (generators : List Generator) (giw : List (Nat × List Nat)) (fuel : Nat)
      (st stF : GenState) (pending : List Nat) (i : Nat),
      fixpoint_loop generators giw fuel st pending = .ok stF →
      st.generator_is_expired.getD i false = true →
      stF.generator_is_expired.getD i false = true) ∧
    (∀ (generators : List Generator) (async_generators : List (Nat × AsyncGenerator))
      (giw : List (Nat × List Nat)) (fuel : Nat) (st stF : GenState)
      (pending : List Nat) (i : Nat),
      fill_loop generators async_generators giw fuel st pending = .ok stF →
      st.generator_is_expired.getD i false = true →
      stF.generator_is_expired.getD i false = true) ∧
    (∀ (generators : List Generator) (giw : List (Nat × List Nat)) (fuel : Nat)
      (st stF : GenState) (pending : List Nat) (i : Nat),
      fixpoint_loop generators giw fuel st pending = .ok stF →
      st.generator_is_expired[i]? = some true →
      stF.run_counts.getD i 0 = st.run_counts.getD i 0) ∧
    (∀ (generators : List Generator) (async_generators : List (Nat × AsyncGenerator))
      (giw : List (Nat × List Nat)) (fuel : Nat) (st stF : GenState)
      (pending : List Nat) (i : Nat),
      fill_loop generators async_generators giw fuel st pending = .ok stF →
      st.generator_is_expired[i]? = some true →
      stF.run_counts.getD i 0 = st.run_counts.getD i 0) ∧
    (∀ (generators : List Generator) (giw : List (Nat × List Nat))
      (st st2 : GenState) (next next2 : List Nat) (idx : Nat),
      step_generator generators giw st next idx = .ok (st2, next2) →
      remaining_invariant st →
      (st2.generator_is_expired = st.generator_is_expired ∧
        st2.remaining_generators = st.remaining_generators) ∨
      (1 ≤ st.remaining_generators ∧
        st2.remaining_generators + 1 = st.remaining_generators)) ∧
    (∀ (generators : List Generator) (async_generators : List (Nat × AsyncGenerator))
      (giw : List (Nat × List Nat)) (st st2 : GenState) (next next2 : List Nat)
      (idx : Nat),
      fill_step generators async_generators giw st next idx = .ok (st2, next2) →
      remaining_invariant st →
      (st2.generator_is_expired = st.generator_is_expired ∧
        st2.remaining_generators = st.remaining_generators) ∨
      (1 ≤ st.remaining_generators ∧
        st2.remaining_generators + 1 = st.remaining_generators)) ∧
    (∀ (generators : List Generator) (giw : List (Nat × List Nat))
      (rep_map : List Nat) (inputs : List (Nat × Nat)) (w : PartitionWitness)
      (st : GenState),
      seed_targets (PartitionWitness.new rep_map) inputs = some w →
      fixpoint_loop generators giw (unknown_count w + 1) (init_state generators w)
        (List.range generators.length) = .ok st →
      ((generate_witness generators giw rep_map inputs).1 = .ok st ↔
        st.remaining_generators = 0)) ∧
    (∀ (generators : List Generator) (async_generators : List (Nat × AsyncGenerator))
      (giw : List (Nat × List Nat)) (rep_map : List Nat) (inputs : List (Nat × Nat))
      (fuel : Nat) (w : PartitionWitness) (st : GenState),
      seed_targets (PartitionWitness.new rep_map) inputs = some w →
      fill_loop generators async_generators giw fuel (init_state generators w)
        (List.range generators.length) = .ok st →
      (fill_witness_values generators async_generators giw rep_map inputs fuel =
        .ok st ↔ st.remaining_generators = 0)) := by
  refine ⟨?_, ?_, ?_, ?_, ?_, ?_, ?_, ?_, ?_, ?_, ?_, ?_, ?_⟩
  · intro generators w
    show generators.length = (List.replicate generators.length false).countP _
    simp [List.countP_eq_length_filter, List.filter_replicate]
  · intro generators giw st stF pending nextF h hinv
    exact round_aux_inv h hinv
  · intro generators agens giw st stF pending nextF h hinv
    exact fill_round_aux_inv h hinv
  · intro generators giw fuel st stF pending h hinv
    exact fixpoint_loop_inv fuel st pending h hinv
  · intro generators agens giw fuel st stF pending h hinv
    exact fill_loop_inv fuel st pending h hinv
  · intro generators giw fuel st stF pending i h he
    exact fixpoint_loop_expired_mono fuel st pending h i he
  · intro generators agens giw fuel st stF pending i h he
    exact fill_loop_expired_mono fuel st pending h i he
  · intro generators giw fuel st stF pending i h he
    exact fixpoint_loop_counts_frozen fuel st pending h i he
  · intro generators agens giw fuel st stF pending i h he
    exact fill_loop_counts_frozen fuel st pending h i he
  · intro generators giw st st2 next next2 idx h hinv
    exact step_no_underflow h hinv
  · intro generators agens giw st st2 next next2 idx h hinv
    exact fill_step_no_underflow h hinv
  · intro generators giw rep_map inputs w st hseed hloop
    rw [generate_witness_of_loop_ok hseed hloop]
    by_cases h0 : st.remaining_generators > 0
    · rw [if_pos h0]
      constructor
      · intro hcontra
        exact absurd hcontra (by simp)
      · intro h0'
        omega
    · rw [if_neg h0]
      constructor
      · intro _
        omega
      · intro _
        rfl
  · intro generators agens giw rep_map inputs fuel w st hseed hloop
    rw [fill_witness_values_of_loop_ok hseed hloop]
    by_cases h0 : st.remaining_generators > 0
    · rw [if_pos h0]
      constructor
      · intro hcontra
        exact absurd hcontra (by simp)
      · intro h0'
        omega
    · rw [if_neg h0]
      constructor
      · intro _
        omega
      · intro _
        rfl

/-- C9 witness: the chain instance exercises initialization, round
preservation and the success iff remaining = 0 equivalence. -/
theorem scheduler_state_invariants_witness :
    remaining_invariant (init_state chain_generators chain_witness0) ∧
    remaining_invariant (⟨⟨[some 5, some 6, some 7, some 8], [0, 1, 2, 3]⟩,
      [true, true, true], 0, [1, 1, 1]⟩ : GenState) ∧
    ((generate_witness chain_generators chain_watches chain_rep_map chain_inputs).1 =
      .ok ⟨⟨[some 5, some 6, some 7, some 8], [0, 1, 2, 3]⟩,
        [true, true, true], 0, [1, 1, 1]⟩ ↔
      (⟨⟨[some 5, some 6, some 7, some 8], [0, 1, 2, 3]⟩,
        [true, true, true], 0, [1, 1, 1]⟩ : GenState).remaining_generators = 0) :=
  ⟨scheduler_state_invariants.1 chain_generators chain_witness0,
    scheduler_state_invariants.2.1 chain_generators chain_watches chain_st0
      ⟨⟨[some 5, some 6, some 7, some 8], [0, 1, 2, 3]⟩,
        [true, true, true], 0, [1, 1, 1]⟩ [0, 1, 2] [1, 2] rfl
      (scheduler_state_invariants.1 chain_generators chain_witness0),
    scheduler_state_invariants.2.2.2.2.2.2.2.2.2.2.2.1 chain_generators chain_watches
      chain_rep_map chain_inputs chain_witness0
      ⟨⟨[some 5, some 6, some 7, some 8], [0, 1, 2, 3]⟩,
        [true, true, true], 0, [1, 1, 1]⟩ rfl rfl⟩

/-- C10.  Within a round with pending order `xs ++ idx :: ys`, once the
prefix `xs` has been processed (state `st1`), the non-expired generator
`idx` runs on `st1.witness`, its produced pairs are merged into the witness
`w2` immediately, and the rest of the round (`ys`) continues from exactly
that merged state — so every later generator of the same round reads, via
`try_get_target`, every value produced by `idx` (each produced pair is
visible in `w2`).  Stated for the synchronous scheduler's round and for
both branches (async side table hit, and synchronous fallthrough) of the
hint-aware scheduler's round. -/
theorem values_visible_within_round :
    (∀ (generators : List Generator) (giw : List (Nat × List Nat))
      (st st1 : GenState) (next0 n1 : List Nat) (xs ys : List Nat) (idx : Nat)
      (g : Generator) (w2 : PartitionWitness) (reps : List Nat),
      run_round_aux generators giw st next0 xs = .ok (st1, n1) →
      st1.generator_is_expired[idx]? = some false →
      generators[idx]? = some g →
      merge_generated_values st1.witness (g.run st1.witness).1 = some (w2, reps) →
      (run_round_aux generators giw st next0 (xs ++ idx :: ys) =
        run_round_aux generators giw
          ⟨w2,
            if (g.run st1.witness).2 then st1.generator_is_expired.set idx true
              else st1.generator_is_expired,
            if (g.run st1.witness).2 then st1.remaining_generators - 1
              else st1.remaining_generators,
            st1.run_counts.set idx (st1.run_counts.getD idx 0 + 1)⟩
          (n1 ++ enqueue_watchers giw
            (if (g.run st1.witness).2 then st1.generator_is_expired.set idx true
              else st1.generator_is_expired) reps) ys) ∧
      (∀ t v, (t, v) ∈ (g.run st1.witness).1 → w2.try_get_target t = some v)) ∧
    (∀ (generators : List Generator) (async_generators : List (Nat × AsyncGenerator))
      (giw : List (Nat × List Nat)) (st st1 : GenState) (next0 n1 : List Nat)
      (xs ys : List Nat) (idx : Nat) (ag : AsyncGenerator)
      (w2 : PartitionWitness) (reps : List Nat),
      fill_round_aux generators async_generators giw st next0 xs = .ok (st1, n1) →
      st1.generator_is_expired[idx]? = some false →
      async_generators.lookup idx = some ag →
      merge_generated_values st1.witness
        (ag.run (st1.run_counts.getD idx 0) st1.witness).1 = some (w2, reps) →
      (fill_round_aux generators async_generators giw st next0 (xs ++ idx :: ys) =
        fill_round_aux generators async_generators giw
          ⟨w2,
            if (ag.run (st1.run_counts.getD idx 0) st1.witness).2 then
              st1.generator_is_expired.set idx true else st1.generator_is_expired,
            if (ag.run (st1.run_counts.getD idx 0) st1.witness).2 then
              st1.remaining_generators - 1 else st1.remaining_generators,
            st1.run_counts.set idx (st1.run_counts.getD idx 0 + 1)⟩
          ((if (ag.run (st1.run_counts.getD idx 0) st1.witness).2 then n1
            else n1 ++ [idx]) ++
            enqueue_watchers giw
              (if (ag.run (st1.run_counts.getD idx 0) st1.witness).2 then
                st1.generator_is_expired.set idx true
              else st1.generator_is_expired) reps) ys) ∧
      (∀ t v, (t, v) ∈ (ag.run (st1.run_counts.getD idx 0) st1.witness).1 →
        w2.try_get_target t = some v)) ∧
    (∀ (generators : List Generator) (async_generators : List (Nat × AsyncGenerator))
      (giw : List (Nat × List Nat)) (st st1 : GenState) (next0 n1 : List Nat)
      (xs ys : List Nat) (idx : Nat) (g : Generator)
      (w2 : PartitionWitness) (reps : List Nat),
      fill_round_aux generators async_generators giw st next0 xs = .ok (st1, n1) →
      st1.generator_is_expired[idx]? = some false →
      async_generators.lookup idx = none →
      generators[idx]? = some g →
      merge_generated_values st1.witness (g.run st1.witness).1 = some (w2, reps) →
      (fill_round_aux generators async_generators giw st next0 (xs ++ idx :: ys) =
        fill_round_aux generators async_generators giw
          ⟨w2,
            if (g.run st1.witness).2 then st1.generator_is_expired.set idx true
              else st1.generator_is_expired,
            if (g.run st1.witness).2 then st1.remaining_generators - 1
              else st1.remaining_generators,
            st1.run_counts.set idx (st1.run_counts.getD idx 0 + 1)⟩
          (n1 ++ enqueue_watchers giw
            (if (g.run st1.witness).2 then st1.generator_is_expired.set idx true
              else st1.generator_is_expired) reps) ys) ∧
      (∀ t v, (t, v) ∈ (g.run st1.witness).1 → w2.try_get_target t = some v)) := by
  refine ⟨?_, ?_, ?_⟩
  · intro generators giw st st1 next0 n1 xs ys idx g w2 reps hxs hexp hg hm
    have hstep : step_generator generators giw st1 n1 idx =
        .ok (⟨w2,
          if (g.run st1.witness).2 then st1.generator_is_expired.set idx true
            else st1.generator_is_expired,
          if (g.run st1.witness).2 then st1.remaining_generators - 1
            else st1.remaining_generators,
          st1.run_counts.set idx (st1.run_counts.getD idx 0 + 1)⟩,
          n1 ++ enqueue_watchers giw
            (if (g.run st1.witness).2 then st1.generator_is_expired.set idx true
              else st1.generator_is_expired) reps) := by
      unfold step_generator
      simp only [hexp, hg, hm]
    constructor
    · rw [run_round_aux_append hxs (idx :: ys)]
      show (match step_generator generators giw st1 n1 idx with
        | Except.error c => Except.error c
        | Except.ok (st2, next2) =>
          run_round_aux generators giw st2 next2 ys) = _
      rw [hstep]
    · intro t v hmem
      exact merge_pairs_visible hm t v hmem
  · intro generators agens giw st st1 next0 n1 xs ys idx ag w2 reps hxs hexp hag hm
    have hstep : fill_step generators agens giw st1 n1 idx =
        .ok (⟨w2,
          if (ag.run (st1.run_counts.getD idx 0) st1.witness).2 then
            st1.generator_is_expired.set idx true else st1.generator_is_expired,
          if (ag.run (st1.run_counts.getD idx 0) st1.witness).2 then
            st1.remaining_generators - 1 else st1.remaining_generators,
          st1.run_counts.set idx (st1.run_counts.getD idx 0 + 1)⟩,
          (if (ag.run (st1.run_counts.getD idx 0) st1.witness).2 then n1
            else n1 ++ [idx]) ++
          enqueue_watchers giw
            (if (ag.run (st1.run_counts.getD idx 0) st1.witness).2 then
              st1.generator_is_expired.set idx true
            else st1.generator_is_expired) reps) := by
      unfold fill_step
      simp only [hexp, hag, hm]
    constructor
    · rw [fill_round_aux_append hxs (idx :: ys)]
      show (match fill_step generators agens giw st1 n1 idx with
        | Except.error c => Except.error c
        | Except.ok (st2, next2) =>
          fill_round_aux generators agens giw st2 next2 ys) = _
      rw [hstep]
    · intro t v hmem
      exact merge_pairs_visible hm t v hmem
  · intro generators agens giw st st1 next0 n1 xs ys idx g w2 reps hxs hexp hag hg hm
    have hstep : fill_step generators agens giw st1 n1 idx =
        .ok (⟨w2,
          if (g.run st1.witness).2 then st1.generator_is_expired.set idx true
            else st1.generator_is_expired,
          if (g.run st1.witness).2 then st1.remaining_generators - 1
            else st1.remaining_generators,
          st1.run_counts.set idx (st1.run_counts.getD idx 0 + 1)⟩,
          n1 ++ enqueue_watchers giw
            (if (g.run st1.witness).2 then st1.generator_is_expired.set idx true
              else st1.generator_is_expired) reps) := by
      have hdeleg : fill_step generators agens giw st1 n1 idx =
          step_generator generators giw st1 n1 idx := by
        unfold fill_step
        simp only [hexp, hag]
      rw [hdeleg]
      unfold step_generator
      simp only [hexp, hg, hm]
    constructor
    · rw [fill_round_aux_append hxs (idx :: ys)]
      show (match fill_step generators agens giw st1 n1 idx with
        | Except.error c => Except.error c
        | Except.ok (st2, next2) =>
          fill_round_aux generators agens giw st2 next2 ys) = _
      rw [hstep]
    · intro t v hmem
      exact merge_pairs_visible hm t v hmem

/-- C10 witness: in round 1 of the chain, generator 1 (processed after the
prefix `[0]`) runs on the state already containing wire 1 = 6 produced by
generator 0, and its own product wire 2 = 7 is visible in the merged
witness from which generator 2 then continues; on the hint-aware path, the
async producer's pair (wire 0 = 9) is merged and visible before the rest of
its round. -/
theorem values_visible_within_round_witness :
    ((run_round_aux chain_generators chain_watches chain_st0 [] ([0] ++ 1 :: [2]) =
      run_round_aux chain_generators chain_watches
        ⟨⟨[some 5, some 6, some 7, none], [0, 1, 2, 3]⟩,
          [true, true, false], 1, [1, 1, 0]⟩ [1, 2] [2]) ∧
    (∀ t v, (t, v) ∈ (chain_g2.run
        (⟨⟨[some 5, some 6, none, none], [0, 1, 2, 3]⟩,
          [true, false, false], 2, [1, 0, 0]⟩ : GenState).witness).1 →
      (⟨[some 5, some 6, some 7, none], [0, 1, 2, 3]⟩ :
        PartitionWitness).try_get_target t = some v)) ∧
    ((fill_round_aux [async_dummy_generator] [(0, async_producer)] []
        ⟨⟨[none], [0]⟩, [false], 1, [0]⟩ [] ([] ++ 0 :: []) =
      fill_round_aux [async_dummy_generator] [(0, async_producer)] []
        ⟨⟨[some 9], [0]⟩, [true], 0, [1]⟩ [] []) ∧
    (∀ t v, (t, v) ∈ [(0, 9)] →
      (⟨[some 9], [0]⟩ : PartitionWitness).try_get_target t = some v)) := by
  constructor
  · exact values_visible_within_round.1 chain_generators chain_watches chain_st0
      ⟨⟨[some 5, some 6, none, none], [0, 1, 2, 3]⟩, [true, false, false], 2, [1, 0, 0]⟩
      [] [1] [0] [2] 1 chain_g2
      ⟨[some 5, some 6, some 7, none], [0, 1, 2, 3]⟩ [2] rfl rfl rfl rfl
  · exact values_visible_within_round.2.1 [async_dummy_generator]
      [(0, async_producer)] [] ⟨⟨[none], [0]⟩, [false], 1, [0]⟩
      ⟨⟨[none], [0]⟩, [false], 1, [0]⟩ [] [] [] [] 0 async_producer
      ⟨[some 9], [0]⟩ [0] rfl rfl rfl rfl
